import Mathlib

/-!
Verification development for the screeps-pluggable movement stack
(Navigator / Cartographer / Atlas modules and the Packed CostMatrix codec).

JavaScript strings are modelled as lists of UTF-16 code units (`List Nat`);
`String.fromCharCode` truncates each value modulo 2 ^ 16 and `charCodeAt`
returns the stored unit, which the definitions below reproduce.  CostMatrix
`_bits` is a `Uint8Array`, modelled as a total function `Nat → Nat` whose
writes are clamped or reduced modulo 256 exactly where the host array would
coerce.  Room names, position ids and packed matrices are all code-unit lists.
-/

/-- A UTF-16 code-unit string, the model of a JavaScript string. -/
abbrev JsStr := List Nat

namespace Packed

/-- `SPACER` from the source: the multiplicative offset used when packing a
cell index together with a symbol-table index into a single character. -/
def SPACER : Nat := 22

/-- `TRIGGER` from the source (`String.fromCharCode(65355)`): marker that a
symbol-table snapshot is stored in front of a serialized matrix. -/
def TRIGGER : Nat := 65355

/-- In-memory state of one `PathFinder.CostMatrix`: the `_bits` cell array
(index `x * 50 + y`) and the `_costMap` list maintained by `update`/`pack`. -/
structure MatrixData where
  bits : Nat → Nat
  costMap : List Nat

/-- The all-zero matrix produced by `new PathFinder.CostMatrix()`. -/
def MatrixData.blank : MatrixData := ⟨fun _ => 0, []⟩

/-- `Array.prototype.indexOf` on the OFFSETS list, returning the index of the
first occurrence (`none` models the JS result `-1`). -/
def costIdx : List Nat → Nat → Option Nat
  | [], _ => none
  | a :: as, v => if a = v then some 0 else (costIdx as v).map (· + 1)

/-- The symbol index `update`/`pack` record for a cost: its index in the
table if present, else the length of the table (the index it is pushed at). -/
def offIdx (off : List Nat) (v : Nat) : Nat :=
  match costIdx off v with
  | some i => i
  | none => off.length

/-- `CostMatrix.prototype.get`: reads `_bits[x * 50 + y]`. -/
def MatrixData.get (m : MatrixData) (x y : Nat) : Nat :=
  m.bits (x * 50 + y)

/-- `CostMatrix.prototype.set` (screeps API): writes the clamped cost into
`_bits[x * 50 + y]`. -/
def MatrixData.set (m : MatrixData) (x y cost : Nat) : MatrixData :=
  { m with bits := fun n => if n = x * 50 + y then min cost 255 else m.bits n }

/-- `CostMatrix.prototype.update` from the source: writes the clamped cost
into `_bits`, looks the raw cost up in the process-wide OFFSETS table
(pushing it if absent), and appends `index * SPACER + offset` to `_costMap`.
Returns the updated OFFSETS table and matrix. -/
def MatrixData.update (off : List Nat) (m : MatrixData) (x y cost : Nat) :
    List Nat × MatrixData :=
  let index := x * 50 + y
  let bits' := fun n => if n = index then min cost 255 else m.bits n
  match costIdx off cost with
  | some o => (off, ⟨bits', m.costMap ++ [index * SPACER + o]⟩)
  | none => (off ++ [cost], ⟨bits', m.costMap ++ [index * SPACER + off.length]⟩)

/-- The scan loop of `CostMatrix.prototype.pack`: for each cell index in
order, a nonzero cost is looked up in (or pushed onto) the OFFSETS table and
the packed unit is appended to the cost map.  `acc` is the pair
(OFFSETS, costMap). -/
def packScan (g : Nat → Nat) : List Nat → List Nat × List Nat →
    List Nat × List Nat
  | [], acc => acc
  | i :: l, acc =>
    packScan g l
      (if g i = 0 then acc
       else
         match costIdx acc.1 (g i) with
         | some o => (acc.1, acc.2 ++ [i * SPACER + o])
         | none => (acc.1 ++ [g i], acc.2 ++ [i * SPACER + acc.1.length]))

/-- `CostMatrix.prototype.pack` from the source.  If `_costMap` is already
populated (by `update`) it is serialized directly; otherwise all 2500 cells
of `_bits` are scanned.  `String.fromCharCode` reduces each unit modulo
2 ^ 16.  Returns (OFFSETS table, matrix with its costMap, code units). -/
def MatrixData.pack (off : List Nat) (m : MatrixData) :
    List Nat × MatrixData × JsStr :=
  if m.costMap ≠ [] then (off, m, m.costMap.map (fun v => v % 65536))
  else
    let r := packScan m.bits (List.range 2500) (off, m.costMap)
    (r.1, { m with costMap := r.2 }, r.2.map (fun v => v % 65536))

/-- The write loop of `CostMatrix.unpack`: every remaining code unit `v`
stores `codec[v % SPACER]` (out-of-range reads give `undefined`, coerced to 0
by the `Uint8Array`, hence `getD _ 0` and the `% 256` reduction) into
`_bits[(v / SPACER) | 0]`. -/
def decodeUnits (codec : List Nat) : List Nat → (Nat → Nat) → Nat → Nat
  | [], b0 => b0
  | v :: vs, b0 =>
    decodeUnits codec vs
      (fun n => if n = v / SPACER then (codec.getD (v % SPACER) 0) % 256 else b0 n)

/-- `PathFinder.CostMatrix.unpack` from the source.  If the string starts
with `TRIGGER` a snapshot table is parsed (`parseInt(packed[1], 10)` parses a
single digit character; a non-digit yields `NaN`, which makes the snapshot
loop run zero times — both observable outcomes agree with the `count = 0`
model below, because `NaN` snapshot entries coerce to 0 in the `Uint8Array`
just as `getD _ 0` does).  Otherwise the live OFFSETS table is the codec. -/
def MatrixData.unpack (off : List Nat) (packed : JsStr) : MatrixData :=
  let cs :=
    if packed.head? = some TRIGGER then
      let c := packed.getD 1 0
      let count := if 48 ≤ c ∧ c ≤ 57 then c - 48 else 0
      ((List.range count).map fun i => packed.getD (2 + i) 0, count + 2)
    else (off, 0)
  ⟨decodeUnits cs.1 (packed.drop cs.2) (fun _ => 0), []⟩

end Packed

namespace Screeps

open Packed

/-- Structure kinds distinguished by `Atlas._addStructures` and
`Cartographer.getRange`; every other `structureType` string falls into the
`other` branch of both functions. -/
inductive SKind
  | road
  | rampart
  | container
  | other
deriving DecidableEq

/-- One world object as seen by `room.find(FIND_STRUCTURES)` or by the
construction-site query: a position, a structure kind and the ownership
flags read by the rampart branch. -/
structure Structure where
  x : Nat
  y : Nat
  kind : SKind
  my : Bool
  isPublic : Bool
deriving DecidableEq

/-- One entry of `opts.addArea`: central reference positions (each carrying
the room name used by `getWalkableArea`), an area size, a cost, and the
`replace` flag. -/
structure AreaGoal where
  objects : List (Nat × Nat × JsStr)
  size : Nat
  cost : Nat
  replace : Bool

/-- The option bag threaded through Navigator, Cartographer and Atlas.
Only the fields the modelled functions read are present; a missing JS
property is `none`/`false`. -/
structure Opts where
  trackCreeps : Bool := false
  refreshMatrix : Bool := false
  addArea : Option (List AreaGoal) := none
  range : Option Nat := none
  plainCost : Option Nat := none
  swampCost : Option Nat := none
  flee : Bool := false
  maxOps : Option Nat := none
  maxRooms : Option Nat := none
  maxCost : Option Nat := none
  heuristicWeight : Option ℚ := none

/-- Read-only game state for one tick: the clock, the set of visible rooms
(`Game.rooms`), and the world-query primitives used by Atlas and
Cartographer.  `sitesAt` models the already-filtered result of
`room.find(FIND_MY_CONSTRUCTION_SITES, {filter: obstacle types})`, and
`anySites` models `_.size(Game.constructionSites) > 0`. -/
structure World where
  time : Nat
  rooms : List JsStr
  structuresAt : JsStr → List Structure
  sitesAt : JsStr → List Structure
  anySites : Bool
  creepsAt : JsStr → List (Nat × Nat)
  isWall : JsStr → Nat → Nat → Bool

/-- `RESET_FREQUENCY` from the source. -/
def RESET_FREQUENCY : Nat := 500

/-- Module-level mutable state of the Atlas module.  Matrix instances live
in a heap `store` addressed by allocation stamps (`nextStamp` is the next
fresh stamp); two references are the same JS object exactly when their
stamps are equal.  `packed`, `costsRoom`, `costsCreep` model `PACKED_COSTS`,
`COSTS_ROOM` and `COSTS_CREEP`; `offsets` is the process-wide `OFFSETS`
symbol table and `lastReset` is `Atlas.lastReset`. -/
structure AtlasState where
  store : Nat → MatrixData
  nextStamp : Nat
  packed : JsStr → Option JsStr
  costsRoom : JsStr → Option Nat
  costsCreep : JsStr → Option Nat
  offsets : List Nat
  lastReset : Nat

/-- The module state right after load at tick `t` (all caches empty,
`Atlas.lastReset = Game.time`). -/
def AtlasState.init (t : Nat) : AtlasState :=
  ⟨fun _ => MatrixData.blank, 0, fun _ => none, fun _ => none, fun _ => none,
    [], t⟩

namespace Atlas

/-- The cost `Atlas._addStructures` assigns to one object. -/
def structureCost (s : Structure) : Nat :=
  match s.kind with
  | .road => 1
  | .rampart => if s.my || s.isPublic then 0 else 255
  | .container => 5
  | .other => 255

/-- `Atlas._addStructures`: folds the room's structures (plus obstacle
construction sites when any site exists globally) over the matrix, calling
`update` whenever the object's cost exceeds the current cell cost.  The
accumulator is the (OFFSETS, matrix) pair mutated by `update`. -/
def addStructures (w : World) (id : JsStr) (acc : List Nat × MatrixData) :
    List Nat × MatrixData :=
  let objects :=
    w.structuresAt id ++ (if w.anySites then w.sitesAt id else [])
  objects.foldl
    (fun a o =>
      if structureCost o > a.2.get o.x o.y then
        MatrixData.update a.1 a.2 o.x o.y (structureCost o)
      else a)
    acc

/-- `Atlas.getWalkableArea`: the [x, y] pairs of non-wall tiles in the
clamped square of the given size around a reference position. -/
def getWalkableArea (w : World) (p : Nat × Nat × JsStr) (size : Nat) :
    List (Nat × Nat) :=
  let left := p.1 - size
  let right := min 49 (p.1 + size)
  let top := p.2.1 - size
  let bottom := min 49 (p.2.1 + size)
  (List.range' left (right + 1 - left)).flatMap fun x =>
    (List.range' top (bottom + 1 - top)).filterMap fun y =>
      if w.isWall p.2.2 x y then none else some (x, y)

/-- `Atlas._addArea`: for each goal, every walkable tile around its objects
whose current cost is below the replace threshold is updated to the goal
cost. -/
def addArea (w : World) (acc : List Nat × MatrixData) (goals : List AreaGoal) :
    List Nat × MatrixData :=
  goals.foldl
    (fun a goal =>
      let grid := goal.objects.flatMap fun o => getWalkableArea w o goal.size
      let threshold := if goal.replace = false then 1 else 255
      grid.foldl
        (fun a' t =>
          if a'.2.get t.1 t.2 < threshold then
            MatrixData.update a'.1 a'.2 t.1 t.2 goal.cost
          else a')
        a)
    acc

/-- `Atlas.refresh`: allocates a fresh blank matrix as `COSTS_ROOM[id]`;
if the room is visible, adds structures (and any `opts.addArea` goals),
packs the matrix and stores the result in `PACKED_COSTS`. -/
def refresh (w : World) (s : AtlasState) (id : JsStr) (opts : Opts) :
    AtlasState :=
  let stamp := s.nextStamp
  let s :=
    { s with
      store := fun n => if n = stamp then MatrixData.blank else s.store n
      nextStamp := stamp + 1
      costsRoom := fun r => if r = id then some stamp else s.costsRoom r }
  if id ∉ w.rooms then s
  else
    let a := addStructures w id (s.offsets, MatrixData.blank)
    let a :=
      match opts.addArea with
      | some goals => addArea w a goals
      | none => a
    let p := MatrixData.pack a.1 a.2
    { s with
      store := fun n => if n = stamp then p.2.1 else s.store n
      offsets := p.1
      packed := fun r => if r = id then some p.2.2 else s.packed r }

/-- `Atlas._reset`: every `RESET_FREQUENCY` ticks the durable entries of
currently visible rooms are dropped; the per-tick stores are emptied
(`COSTS_CREEP` keys are deleted by iterating the keys of `COSTS_ROOM`, as in
the source) and `lastReset` is advanced to the current tick. -/
def reset (w : World) (s : AtlasState) : AtlasState :=
  let s :=
    if w.time % RESET_FREQUENCY = 0 then
      { s with packed := fun r => if r ∈ w.rooms then none else s.packed r }
    else s
  { s with
    costsRoom := fun _ => none
    costsCreep := fun r => if (s.costsRoom r).isSome then none else s.costsCreep r
    lastReset := w.time }

/-- `Atlas._addCreeps`: clones `COSTS_ROOM[id]` (the API `clone()` copies
`_bits` but not the custom `_costMap` property), sets every creep position
to 255 with `set`, and caches the clone as `COSTS_CREEP[id]`. -/
def addCreeps (w : World) (s : AtlasState) (id : JsStr) : Nat × AtlasState :=
  let base := (s.costsRoom id).getD 0
  let d0 : MatrixData := ⟨(s.store base).bits, []⟩
  let d := (w.creepsAt id).foldl (fun m p => m.set p.1 p.2 255) d0
  let stamp := s.nextStamp
  (stamp,
    { s with
      store := fun n => if n = stamp then d else s.store n
      nextStamp := stamp + 1
      costsCreep := fun r => if r = id then some stamp else s.costsCreep r })

/-- First statement of `Atlas.getCosts`: reset when the recorded epoch is
behind the clock. -/
def step1 (w : World) (s : AtlasState) : AtlasState :=
  if s.lastReset < w.time then reset w s else s

/-- Second statement of `Atlas.getCosts`: refresh when no durable entry
exists or a refresh is forced. -/
def step2 (w : World) (s : AtlasState) (id : JsStr) (opts : Opts) :
    AtlasState :=
  if (s.packed id).isNone ∨ opts.refreshMatrix then refresh w s id opts else s

/-- Third statement of `Atlas.getCosts`: materialize the durable entry into
`COSTS_ROOM` when absent (this point is only reached with a durable entry
present, since `refresh` always stores a `COSTS_ROOM` instance). -/
def step3 (s : AtlasState) (id : JsStr) : AtlasState :=
  match s.costsRoom id with
  | some _ => s
  | none =>
    let d := MatrixData.unpack s.offsets ((s.packed id).getD [])
    let stamp := s.nextStamp
    { s with
      store := fun n => if n = stamp then d else s.store n
      nextStamp := stamp + 1
      costsRoom := fun r => if r = id then some stamp else s.costsRoom r }

/-- `Atlas.getCosts`: returns the stamp of the matrix instance handed to the
caller together with the updated module state. -/
def getCosts (w : World) (s : AtlasState) (id : JsStr) (opts : Opts) :
    Nat × AtlasState :=
  let s := step3 (step2 w (step1 w s) id opts) id
  let base := (s.costsRoom id).getD 0
  if ¬(opts.trackCreeps ∧ id ∈ w.rooms) then (base, s)
  else
    match s.costsCreep id with
    | some st => (st, s)
    | none => addCreeps w s id

/-- A caller mutating the matrix instance it received (`matrix.set` on the
returned reference): only the heap cell of that stamp changes. -/
def setCell (s : AtlasState) (stamp x y cost : Nat) : AtlasState :=
  { s with
    store := fun n => if n = stamp then (s.store n).set x y cost else s.store n }

end Atlas

end Screeps

namespace Screeps

/-- A room position: x, y in [0, 49] and the room name. -/
structure Pos where
  x : Nat
  y : Nat
  roomName : JsStr
deriving DecidableEq

/-- The JS `a || b` idiom on an optional numeric option: a missing or zero
value falls back to the default. -/
def jsOr (o : Option Nat) (d : Nat) : Nat :=
  match o with
  | some n => if n = 0 then d else n
  | none => d

/-- The JS `opts.maxCost || Infinity` idiom: `none` stands for Infinity. -/
def jsOrInf (o : Option Nat) : Option Nat :=
  match o with
  | some n => if n = 0 then none else some n
  | none => none

/-- The argument record `Cartographer.callPathFinder` hands to the external
search primitive `PathFinder.search` (the room callback is the opaque part
of the contract and carries no data inspected by the claims). -/
structure SearchArgs where
  start : Pos
  goalPos : Pos
  goalRange : Nat
  plainCost : Nat
  swampCost : Nat
  flee : Bool
  maxOps : Nat
  maxRooms : Nat
  maxCost : Option Nat
  heuristicWeight : ℚ

/-- The result contract of the external search primitive. -/
structure SearchResult where
  path : List Pos
  incomplete : Bool

/-- External primitives consumed by the modelled modules: the world queries,
the opaque `PathFinder.search`, `Game.map.getRoomLinearDistance`,
`RoomPosition.getDirectionTo` and the `_.random(100)` draw of the current
call. -/
structure Env where
  world : World
  search : SearchArgs → SearchResult
  dist : JsStr → JsStr → Nat
  dirTo : Pos → Pos → Nat
  random : Nat

/-- JS exceptions that the modelled code can raise; `typeError` is the
result of invoking a method name that is not defined on the class. -/
inductive JsErr
  | typeError
deriving DecidableEq

namespace Cartographer

/-- `Cartographer.getRange` from the source (the Navigator-module version,
which honours an explicit `opts.range` and treats every structure other than
road and container as blocking). -/
def getRange (w : World) (goal : Pos) (opts : Opts) : Nat :=
  match opts.range with
  | some r => r
  | none =>
    if w.isWall goal.roomName goal.x goal.y then 1
    else if goal.roomName ∉ w.rooms then 0
    else if opts.trackCreeps ∧
        ((w.creepsAt goal.roomName).filter fun p =>
          p.1 = goal.x ∧ p.2 = goal.y) ≠ [] then 1
    else if (((w.structuresAt goal.roomName).filter fun s =>
          s.x = goal.x ∧ s.y = goal.y).find? fun s =>
            s.kind ≠ SKind.road ∧ s.kind ≠ SKind.container).isSome then 1
    else 0

/-- `Cartographer.callPathFinder`: builds the goal from `getRange` and
invokes the search primitive with the option fall-backs of the source
(`plainCost || 3`, `swampCost || 7`, `maxOps || 20000`,
`maxRooms || (route ? route.length : 16)`, `maxCost || Infinity`,
`heuristicWeight || 1.2`). -/
def callPathFinder (env : Env) (start e : Pos) (opts : Opts)
    (route : Option (List JsStr)) : SearchResult :=
  env.search
    { start := start
      goalPos := e
      goalRange := getRange env.world e opts
      plainCost := jsOr opts.plainCost 3
      swampCost := jsOr opts.swampCost 7
      flee := opts.flee
      maxOps := jsOr opts.maxOps 20000
      maxRooms :=
        jsOr opts.maxRooms (match route with | some r => r.length | none => 16)
      maxCost := jsOrInf opts.maxCost
      heuristicWeight :=
        match opts.heuristicWeight with
        | some q => if q = 0 then (12 : ℚ) / 10 else q
        | none => (12 : ℚ) / 10 }

/-- `Cartographer.serializePath`: appends the direction from each position
to its successor while both lie in the same room (the `last` bookkeeping of
the source is dead code and the visualize branch is outside the modelled
options). -/
def serializePath (env : Env) (path : List Pos) (start : Pos) : List Nat :=
  (path.foldl
    (fun (a : List Nat × Pos) p =>
      (if p.roomName = a.2.roomName then a.1 ++ [env.dirTo a.2 p] else a.1, p))
    ([], start)).1

/-- `Cartographer.findPath` from the source.  The source calls
`this.findRoute(r1, r2, opts)` both when the linear distance exceeds 2 and
on the incomplete-result retry, but the class defines no `findRoute` method
(its route method is named `getRoute`), so both calls throw a `TypeError`
at run time; the model raises `JsErr.typeError` at exactly those points. -/
def findPath (env : Env) (start goal : Pos) (opts : Opts) :
    Except JsErr (List Nat) :=
  let distance := env.dist start.roomName goal.roomName
  if distance > 2 then Except.error JsErr.typeError
  else
    let result := callPathFinder env start goal opts none
    if result.incomplete then Except.error JsErr.typeError
    else Except.ok (serializePath env result.path start)

end Cartographer

namespace Navigator

/-- `Navigator.positionToId`: `String.fromCharCode(x + 192, y + 192)`
prepended to the room name. -/
def positionToId (p : Pos) : JsStr :=
  (p.x + 192) % 65536 :: (p.y + 192) % 65536 :: p.roomName

/-- `Navigator.positionFromId`: the first two code units minus 192 and the
remainder of the string (for ids produced by `positionToId` the subtraction
never borrows, matching the JS number subtraction). -/
def positionFromId (id : JsStr) : Pos :=
  ⟨id.getD 0 0 - 192, id.getD 1 0 - 192, id.drop 2⟩

/-- The `COMPLIMENTS` direction table
`[BOTTOM, BOTTOM_LEFT, LEFT, TOP_LEFT, TOP, TOP_RIGHT, RIGHT, BOTTOM_RIGHT]`. -/
def COMPLIMENTS : List Nat := [5, 6, 7, 8, 1, 2, 3, 4]

/-- The per-creep `_nav` memory record: the serialized path (a string of
direction digits, modelled as the list of their numeric values), the target
position id, the last observed position id and the stall counter (`none`
models an undefined counter, whose increment stays `NaN`). -/
structure NavCache where
  path : Option (List Nat) := none
  target : Option JsStr := none
  last : Option JsStr := none
  stuck : Option Nat := none
deriving DecidableEq

/-- A creep as read by the navigator. -/
structure Creep where
  pos : Pos
deriving DecidableEq

/-- JS truthiness of `cache.path`: an undefined value and the empty string
are falsy. -/
def pathTruthy : Option (List Nat) → Bool
  | some (_ :: _) => true
  | _ => false

/-- `+cache.path[0]`: the numeric value of the first character of the cached
path; an empty or missing path gives `NaN`, modelled as `none`. -/
def firstMove : Option (List Nat) → Option Nat
  | some (d :: _) => some d
  | _ => none

/-- `Navigator.isAtExpected` from the source: if the current position
matches the previously recorded one (or the quirky exit test fires) the
stall counter is incremented and the check fails; otherwise the counter
resets and the last cached move is compared with the observed direction
(an out-of-range digit reads `undefined` from `COMPLIMENTS` and compares
unequal).  `creep.say` is a pure display effect and is not modelled. -/
def isAtExpected (env : Env) (creep : Creep) (cache : NavCache) :
    Bool × NavCache :=
  let p1 := creep.pos
  let p2 := positionFromId (cache.last.getD [])
  let isexit := p1.x = 0 ∨ p2.x = 0 ∨ p1.y = 49 ∨ p2.y = 49
  if isexit ∨ (p1.x = p2.x ∧ p1.y = p2.y) then
    (false, { cache with stuck := (cache.stuck).map (· + 1) })
  else
    let cache := { cache with stuck := some 0 }
    match firstMove cache.path with
    | some d =>
      if 1 ≤ d ∧ d ≤ 8 then
        (decide (COMPLIMENTS.getD (d - 1) 0 = env.dirTo p1 p2), cache)
      else (false, cache)
    | none => (false, cache)

/-- `Navigator.moveObstruction` from the source: returns `false` only when
the next cached move leaves the room bounds; otherwise `true`, additionally
forcing `opts.trackCreeps` on when no creep occupies the target tile (a
non-numeric direction digit indexes `undefined` offsets, the `NaN` bounds
tests fail and the lookup finds nothing, landing in the same branch).  The
move command issued to a blocking own creep does not affect the returned
value and is not modelled. -/
def moveObstruction (env : Env) (creep : Creep) (opts : Opts)
    (cache : NavCache) : Bool × Opts :=
  match firstMove cache.path with
  | some d =>
    if 1 ≤ d ∧ d ≤ 8 then
      let ox : List Int := [0, 1, 1, 1, 0, -1, -1, -1]
      let oy : List Int := [-1, -1, 0, 1, 1, 1, 0, -1]
      let dx : Int := ox.getD (d - 1) 0 + creep.pos.x
      let dy : Int := oy.getD (d - 1) 0 + creep.pos.y
      if dx < 0 ∨ dx > 49 ∨ dy < 0 ∨ dy > 49 then (false, opts)
      else
        let other :=
          ((env.world.creepsAt creep.pos.roomName).filter fun q =>
            (q.1 : Int) = dx ∧ (q.2 : Int) = dy) ≠ []
        if other then (true, opts)
        else (true, { opts with trackCreeps := true })
    else (true, { opts with trackCreeps := true })
  | none => (true, { opts with trackCreeps := true })

/-- `Navigator.getNewPath` from the source: records the goal id as the
cache target, zeroes the stall counter and asks the Cartographer for a new
serialized path (`opts.stealth` lies outside the modelled options). -/
def getNewPath (env : Env) (creep : Creep) (goal : Pos) (cache : NavCache)
    (opts : Opts) : Except JsErr (List Nat × NavCache × Opts) :=
  let cache :=
    { cache with target := some (positionToId goal), stuck := some 0 }
  match Cartographer.findPath env creep.pos goal opts with
  | Except.error e => Except.error e
  | Except.ok p => Except.ok (p, cache, opts)

/-- The stall-branch guard
`cache.stuck > 2 && 50 > _.random(100) - cache.stuck` (an undefined counter
makes both comparisons `NaN` and false). -/
def stuckCond (stuck : Option Nat) (r : Nat) : Bool :=
  match stuck with
  | some n => decide (n > 2) && decide ((50 : Int) > (r : Int) - (n : Int))
  | none => false

/-- `Navigator.getNextMove` from the source: decides whether a replan is
needed (cache miss or changed target; a matched expectation consumes one
move; a detected stall past the threshold with a lucky draw defers to
`opts.trackCreeps` or `moveObstruction`), records the current position id,
replans if needed, and returns the numeric value of the first cached move
(`NaN`, i.e. `none`, when the cached string is empty). -/
def getNextMove (env : Env) (creep : Creep) (goal : Pos) (opts : Opts)
    (cache : NavCache) : Except JsErr (Option Nat × NavCache × Opts) :=
  let r :=
    if ¬(pathTruthy cache.path ∧ cache.target = some (positionToId goal)) then
      (true, cache, opts)
    else
      let a := isAtExpected env creep cache
      if a.1 then
        (false, { a.2 with path := some ((a.2.path.getD []).tail) }, opts)
      else if stuckCond a.2.stuck env.random then
        if opts.trackCreeps then (true, a.2, opts)
        else
          let mo := moveObstruction env creep opts a.2
          (mo.1, a.2, mo.2)
      else (false, a.2, opts)
  let cache := { r.2.1 with last := some (positionToId creep.pos) }
  if r.1 then
    match getNewPath env creep goal cache r.2.2 with
    | Except.error e => Except.error e
    | Except.ok (p, c, o) =>
      Except.ok (firstMove (some p), { c with path := some p }, o)
  else Except.ok (firstMove cache.path, cache, r.2.2)

end Navigator

end Screeps

namespace Screeps

/-- Well-formedness of the Atlas heap: every cached stamp was allocated
(it is below `nextStamp`), and a creep overlay only exists for a room that
also has a base entry. -/
def AtlasWF (s : AtlasState) : Prop :=
  (∀ r st, s.costsRoom r = some st → st < s.nextStamp) ∧
  (∀ r st, s.costsCreep r = some st → st < s.nextStamp) ∧
  (∀ r, (s.costsCreep r).isSome → (s.costsRoom r).isSome)

/-- A sequence of `CostMatrix.prototype.update` calls, as issued by callers
building a matrix cell by cell; each triple is (x, y, cost). -/
def updSeq (ps : List (Nat × Nat × Nat)) (acc : List Nat × Packed.MatrixData) :
    List Nat × Packed.MatrixData :=
  ps.foldl (fun a p => Packed.MatrixData.update a.1 a.2 p.1 p.2.1 p.2.2) acc

/-- An example room name. -/
def exRoom : JsStr := [87]

/-- An example blocking structure at cell (10, 10) (matrix index 510). -/
def exStruct : Structure :=
  ⟨10, 10, SKind.other, false, false⟩

/-- Tick 1, the example room visible and holding one blocking structure and
one creep at (2, 2). -/
def exWorldVis : World :=
  { time := 1
    rooms := [exRoom]
    structuresAt := fun _ => [exStruct]
    sitesAt := fun _ => []
    anySites := false
    creepsAt := fun _ => [(2, 2)]
    isWall := fun _ _ _ => false }

/-- Tick 1 with no visible room. -/
def exWorldInvis : World :=
  { exWorldVis with rooms := [] }

/-- Tick 2 with no visible room. -/
def exWorldLater : World :=
  { exWorldVis with time := 2, rooms := [] }

/-- An example grid with two nonzero byte cells (indices 510 and 511). -/
def exGrid : Nat → Nat :=
  fun i => if i = 510 then 255 else if i = 511 then 5 else 0

/-- An example environment: same-room distances, an always-complete empty
search result, and a constant direction primitive. -/
def exEnv : Env :=
  { world := exWorldVis
    search := fun _ => ⟨[], false⟩
    dist := fun _ _ => 0
    dirTo := fun _ _ => 1
    random := 0 }

/-- The example environment with start and goal five rooms apart. -/
def exEnvFar : Env :=
  { exEnv with dist := fun _ _ => 5 }

/-- The goal-tolerance decision list exactly as the specification words it
(for comparison with `Cartographer.getRange`): the explicit range option if
present; else 1 if the goal cell is a terrain wall; else 0 if the goal
region is not observable; else 1 if agent tracking is enabled and an agent
occupies the goal cell; else 1 if a non-passable structure occupies the goal
cell; else 0.  Non-passable means neither road nor container. -/
def rangeRule (w : World) (goal : Pos) (opts : Opts) : Nat :=
  match opts.range with
  | some r => r
  | none =>
    if w.isWall goal.roomName goal.x goal.y then 1
    else if goal.roomName ∉ w.rooms then 0
    else if opts.trackCreeps ∧
        ∃ p ∈ w.creepsAt goal.roomName, p.1 = goal.x ∧ p.2 = goal.y then 1
    else if ∃ s ∈ w.structuresAt goal.roomName,
        s.x = goal.x ∧ s.y = goal.y ∧
        s.kind ≠ SKind.road ∧ s.kind ≠ SKind.container then 1
    else 0

end Screeps

namespace Packed

theorem costIdx_eq_none {l : List Nat} {v : Nat} :
    costIdx l v = none ↔ v ∉ l := by
  induction l with
  | nil => simp [costIdx]
  | cons a as ih =>
    by_cases h : a = v
    · simp [costIdx, h]
    · have h' : ¬v = a := fun e => h e.symm
      simp [costIdx, h, Option.map_eq_none', ih, h']

theorem costIdx_append_left {l t : List Nat} {v : Nat} (h : v ∈ l) :
    costIdx (l ++ t) v = costIdx l v := by
  induction l with
  | nil => cases h
  | cons a as ih =>
    by_cases ha : a = v
    · simp [costIdx, ha]
    · have : v ∈ as := by
        rcases List.mem_cons.mp h with e | hm
        · exact absurd e.symm ha
        · exact hm
      simp [costIdx, ha, ih this]

theorem costIdx_append_new {l t : List Nat} {v : Nat} (h : v ∉ l) :
    costIdx (l ++ v :: t) v = some l.length := by
  induction l with
  | nil => simp [costIdx]
  | cons a as ih =>
    have ha : ¬a = v := fun e => h (by simp [e])
    have has : v ∉ as := fun hm => h (List.mem_cons_of_mem _ hm)
    simp [costIdx, ha, ih has]

theorem costIdx_spec_of_mem {l : List Nat} {v : Nat} (h : v ∈ l) :
    ∃ o, costIdx l v = some o ∧ o < l.length ∧ l.getD o 0 = v := by
  induction l with
  | nil => cases h
  | cons a as ih =>
    by_cases ha : a = v
    · exact ⟨0, by simp [costIdx, ha], by simp, by simp [ha]⟩
    · have : v ∈ as := by
        rcases List.mem_cons.mp h with e | hm
        · exact absurd e.symm ha
        · exact hm
      obtain ⟨o, ho, hlt, hg⟩ := ih this
      exact ⟨o + 1, by simp [costIdx, ha, ho], by simpa using Nat.succ_lt_succ hlt,
        by simpa using hg⟩

end Packed

namespace Packed

theorem packScan_spec (g : Nat → Nat) (l : List Nat) :
    ∀ off cm,
      (∃ t, (packScan g l (off, cm)).1 = off ++ t) ∧
      (∀ v, v ∈ (packScan g l (off, cm)).1 →
        v ∈ off ∨ ∃ i, i ∈ l ∧ g i = v ∧ v ≠ 0) ∧
      (off.Nodup → (packScan g l (off, cm)).1.Nodup) ∧
      ((packScan g l (off, cm)).2 =
        cm ++ (l.filter fun i => g i ≠ 0).map
          (fun i => i * SPACER + offIdx (packScan g l (off, cm)).1 (g i))) ∧
      (∀ i, i ∈ l → g i ≠ 0 → g i ∈ (packScan g l (off, cm)).1) := by
  induction l with
  | nil =>
    intro off cm
    refine ⟨⟨[], by simp [packScan]⟩, ?_, ?_, ?_, ?_⟩ <;> simp [packScan]
  | cons j l ih =>
    intro off cm
    by_cases hz : g j = 0
    · have e : packScan g (j :: l) (off, cm) = packScan g l (off, cm) := by
        simp [packScan, hz]
      obtain ⟨h1, h2, h3, h4, h5⟩ := ih off cm
      rw [e]
      refine ⟨h1, ?_, h3, ?_, ?_⟩
      · intro v hv
        rcases h2 v hv with h | ⟨i, hi, hgi⟩
        · exact Or.inl h
        · exact Or.inr ⟨i, List.mem_cons_of_mem _ hi, hgi⟩
      · rw [h4]
        congr 2
        simp [List.filter_cons, hz]
      · intro i hi hgi
        rcases List.mem_cons.mp hi with rfl | hi'
        · exact absurd hz hgi
        · exact h5 i hi' hgi
    · cases hc : costIdx off (g j) with
      | some o =>
        have e : packScan g (j :: l) (off, cm) =
            packScan g l (off, cm ++ [j * SPACER + o]) := by
          simp [packScan, hz, hc]
        obtain ⟨h1, h2, h3, h4, h5⟩ := ih off (cm ++ [j * SPACER + o])
        obtain ⟨t, hpre⟩ := h1
        have hmemoff : g j ∈ off := by
          by_contra hn
          rw [costIdx_eq_none.mpr hn] at hc
          cases hc
        have hidx : offIdx (packScan g l (off, cm ++ [j * SPACER + o])).1 (g j) = o := by
          rw [offIdx, hpre, costIdx_append_left hmemoff, hc]
        rw [e]
        refine ⟨⟨t, hpre⟩, ?_, h3, ?_, ?_⟩
        · intro v hv
          rcases h2 v hv with h | ⟨i, hi, hgi⟩
          · exact Or.inl h
          · exact Or.inr ⟨i, List.mem_cons_of_mem _ hi, hgi⟩
        · rw [h4, List.filter_cons, if_pos (by simpa using hz)]
          simp [hidx]
        · intro i hi hgi
          rcases List.mem_cons.mp hi with rfl | hi'
          · rw [hpre]
            exact List.mem_append_left _ hmemoff
          · exact h5 i hi' hgi
      | none =>
        have hnm : g j ∉ off := costIdx_eq_none.mp hc
        have e : packScan g (j :: l) (off, cm) =
            packScan g l (off ++ [g j], cm ++ [j * SPACER + off.length]) := by
          simp [packScan, hz, hc]
        obtain ⟨h1, h2, h3, h4, h5⟩ := ih (off ++ [g j]) (cm ++ [j * SPACER + off.length])
        obtain ⟨t, hpre⟩ := h1
        have hpre' : (packScan g l (off ++ [g j], cm ++ [j * SPACER + off.length])).1 =
            off ++ (g j :: t) := by
          rw [hpre, List.append_assoc]
          rfl
        have hidx : offIdx
            (packScan g l (off ++ [g j], cm ++ [j * SPACER + off.length])).1 (g j) =
            off.length := by
          rw [offIdx, hpre', costIdx_append_new hnm]
        rw [e]
        refine ⟨⟨g j :: t, hpre'⟩, ?_, ?_, ?_, ?_⟩
        · intro v hv
          rcases h2 v hv with h | ⟨i, hi, hgi⟩
          · rcases List.mem_append.mp h with h' | h'
            · exact Or.inl h'
            · refine Or.inr ⟨j, List.mem_cons_self _ _, ?_, ?_⟩
              · simpa using (List.mem_singleton.mp h').symm
              · have := List.mem_singleton.mp h'
                rw [this]
                exact hz
          · exact Or.inr ⟨i, List.mem_cons_of_mem _ hi, hgi⟩
        · intro hoff
          refine h3 (List.Nodup.append hoff (List.nodup_singleton _) ?_)
          intro a ha hb
          rw [List.mem_singleton.mp hb] at ha
          exact hnm ha
        · rw [h4, List.filter_cons, if_pos (by simpa using hz)]
          simp [hidx]
        · intro i hi hgi
          rcases List.mem_cons.mp hi with rfl | hi'
          · rw [hpre']
            exact List.mem_append_right _ (List.mem_cons_self _ _)
          · exact h5 i hi' hgi

end Packed

namespace Packed

theorem decodeUnits_spec (codec : List Nat) (us : List Nat) (f : Nat → Nat)
    (hf : ∀ i ∈ us, f i < SPACER) :
    ∀ b0 n, decodeUnits codec (us.map fun i => i * SPACER + f i) b0 n =
      if n ∈ us then (codec.getD (f n) 0) % 256 else b0 n := by
  induction us with
  | nil => intro b0 n; simp [decodeUnits]
  | cons j us ih =>
    intro b0 n
    have hfj : f j < 22 := by simpa [SPACER] using hf j (List.mem_cons_self _ _)
    have hdiv : (j * SPACER + f j) / SPACER = j := by
      simp only [SPACER] at *
      omega
    have hmod : (j * SPACER + f j) % SPACER = f j := by
      simp only [SPACER] at *
      omega
    simp only [List.map_cons, decodeUnits]
    rw [ih (fun i hi => hf i (List.mem_cons_of_mem _ hi))]
    by_cases h1 : n ∈ us
    · simp [h1, List.mem_cons]
    · by_cases h2 : n = j
      · subst h2
        simp [h1, hdiv, hmod]
      · simp [h1, h2, hdiv]

theorem packed_roundtrip_core (g : Nat → Nat)
    (hbyte : ∀ i, g i ≤ 255)
    (hdist : (((Finset.range 2500).filter fun i => g i ≠ 0).image g).card ≤ 22) :
    ∀ i, i < 2500 →
      (MatrixData.unpack (MatrixData.pack [] ⟨g, []⟩).1
        (MatrixData.pack [] ⟨g, []⟩).2.2).bits i = g i := by
  obtain ⟨⟨t, hpre⟩, hmem, hnd, hcm, hmemg⟩ :=
    packScan_spec g (List.range 2500) [] []
  set r := packScan g (List.range 2500) ([], []) with hr
  have hpack : MatrixData.pack [] (⟨g, []⟩ : MatrixData) =
      (r.1, ⟨g, r.2⟩, r.2.map (fun v => v % 65536)) := by
    simp [MatrixData.pack, hr]
  -- the final offsets table has at most 22 entries
  have hnodup : r.1.Nodup := hnd List.nodup_nil
  have hsub : r.1.toFinset ⊆ ((Finset.range 2500).filter fun i => g i ≠ 0).image g := by
    intro v hv
    rcases hmem v (List.mem_toFinset.mp hv) with h | ⟨i, hi, hg, hne⟩
    · cases h
    · exact Finset.mem_image.mpr
        ⟨i, Finset.mem_filter.mpr
          ⟨Finset.mem_range.mpr (List.mem_range.mp hi), by rw [hg]; exact hne⟩, hg⟩
  have hlen : r.1.length ≤ 22 := by
    calc r.1.length = r.1.toFinset.card := (List.toFinset_card_of_nodup hnodup).symm
    _ ≤ _ := Finset.card_le_card hsub
    _ ≤ 22 := hdist
  -- the packed unit list
  set us := (List.range 2500).filter (fun i => g i ≠ 0) with hus
  set f : Nat → Nat := fun i => offIdx r.1 (g i) with hfdef
  have hcm' : r.2 = us.map fun i => i * SPACER + f i := by
    simpa using hcm
  have husmem : ∀ i ∈ us, i < 2500 ∧ g i ≠ 0 := by
    intro i hi
    have h := List.mem_filter.mp hi
    exact ⟨List.mem_range.mp h.1, by simpa using h.2⟩
  have hf : ∀ i ∈ us, f i < SPACER := by
    intro i hi
    have hgi : g i ∈ r.1 :=
      hmemg i (List.mem_range.mpr (husmem i hi).1) (husmem i hi).2
    obtain ⟨o, ho, hlt, _⟩ := costIdx_spec_of_mem hgi
    have : f i = o := by rw [hfdef]; simp only [offIdx, ho]
    rw [this]
    calc o < r.1.length := hlt
    _ ≤ 22 := hlen
  have hunit : ∀ v ∈ r.2, v < 55000 := by
    intro v hv
    rw [hcm'] at hv
    obtain ⟨i, hi, rfl⟩ := List.mem_map.mp hv
    have h1 : i < 2500 := (husmem i hi).1
    have h2 : f i < SPACER := hf i hi
    simp only [SPACER] at *
    omega
  have hmap : r.2.map (fun v => v % 65536) = r.2 := by
    have h : ∀ v ∈ r.2, v % 65536 = id v := fun v hv =>
      Nat.mod_eq_of_lt (show v < 65536 from lt_trans (hunit v hv) (by norm_num))
    rw [List.map_congr_left h, List.map_id]
  -- unpack takes the live-table branch
  have hhead : r.2.head? ≠ some TRIGGER := by
    cases h : r.2 with
    | nil => simp
    | cons v vs =>
      have : v < 55000 := hunit v (h ▸ List.mem_cons_self _ _)
      simp only [List.head?]
      intro hcontra
      rw [Option.some_inj] at hcontra
      rw [hcontra] at this
      simp [TRIGGER] at this
  have hunpack : MatrixData.unpack r.1 r.2 =
      ⟨decodeUnits r.1 r.2 (fun _ => 0), []⟩ := by
    rw [MatrixData.unpack]
    simp [hhead]
  intro i hi
  rw [hpack]
  simp only
  rw [hmap, hunpack]
  simp only
  rw [hcm', decodeUnits_spec r.1 us f hf]
  by_cases hgi : g i = 0
  · have : i ∉ us := by
      intro hc
      exact (husmem i hc).2 hgi
    simp [this, hgi]
  · have hin : i ∈ us := by
      rw [hus]
      exact List.mem_filter.mpr ⟨List.mem_range.mpr hi, by simpa using hgi⟩
    have hgmem : g i ∈ r.1 := hmemg i (List.mem_range.mpr hi) hgi
    obtain ⟨o, ho, _, hgetD⟩ := costIdx_spec_of_mem hgmem
    have hfi : f i = o := by rw [hfdef]; simp only [offIdx, ho]
    rw [if_pos hin, hfi, hgetD]
    exact Nat.mod_eq_of_lt (Nat.lt_succ_of_le (hbyte i))

end Packed

open Packed Screeps in
/-- C1: for every 50x50 cost grid of byte costs with at most 22 distinct
nonzero cost values, packing with `CostMatrix.pack` (from the process-wide
symbol table in its initial, empty state) and unpacking the result with
`CostMatrix.unpack` against the table exactly as `pack` left it (no
intervening mutation of OFFSETS) returns the original cost at every cell. -/
theorem costmatrix_pack_unpack_roundtrip (g : Nat → Nat)
    (hbyte : ∀ i, g i ≤ 255)
    (hdist : (((Finset.range 2500).filter fun i => g i ≠ 0).image g).card ≤ 22) :
    ∀ x y, x < 50 → y < 50 →
      (MatrixData.unpack (MatrixData.pack [] ⟨g, []⟩).1
        (MatrixData.pack [] ⟨g, []⟩).2.2).get x y = g (x * 50 + y) := by
  intro x y hx hy
  exact packed_roundtrip_core g hbyte hdist (x * 50 + y) (by omega)

set_option maxRecDepth 40000 in
open Packed Screeps in
/-- Witness for C1 at the concrete two-value grid `exGrid`. -/
theorem costmatrix_pack_unpack_roundtrip_witness :
    (∀ i, exGrid i ≤ 255) ∧
    ((((Finset.range 2500).filter fun i => exGrid i ≠ 0).image exGrid).card ≤ 22) ∧
    (MatrixData.unpack (MatrixData.pack [] ⟨exGrid, []⟩).1
        (MatrixData.pack [] ⟨exGrid, []⟩).2.2).get 10 10 = exGrid 510 := by
  have h1 : ∀ i, exGrid i ≤ 255 := by
    intro i
    simp only [exGrid]
    split
    · omega
    · split <;> omega
  have h2 :
      (((Finset.range 2500).filter fun i => exGrid i ≠ 0).image exGrid).card ≤ 22 := by
    decide
  exact ⟨h1, h2,
    costmatrix_pack_unpack_roundtrip exGrid h1 h2 10 10 (by omega) (by omega)⟩

open Packed in
/-- C2 (amended): `update` (like the scan loop of `pack`) performs no bound
check on the symbol table: an unseen nonzero cost value is always appended to
OFFSETS and the packed unit for the cell is always emitted, so the table can
grow past 22 entries — there is no `SymbolTableFull` failure and no cell is
left unencoded; the 22-entry limit is only an unenforced usage constraint. -/
theorem costmatrix_update_unconditional (off : List Nat) (m : MatrixData)
    (x y cost : Nat) :
    (MatrixData.update off m x y cost).1 =
      (if cost ∈ off then off else off ++ [cost]) ∧
    (MatrixData.update off m x y cost).2.costMap =
      m.costMap ++ [(x * 50 + y) * SPACER + offIdx off cost] := by
  unfold MatrixData.update offIdx
  cases hc : costIdx off cost with
  | some o =>
    have hm : cost ∈ off := by
      by_contra hn
      rw [costIdx_eq_none.mpr hn] at hc
      cases hc
    simp [hc, hm]
  | none =>
    have hm : cost ∉ off := costIdx_eq_none.mp hc
    simp [hc, hm]

open Packed Screeps in
/-- C2 counterexample: a sequence of 23 `update` calls with 23 distinct
nonzero costs (1..23, at cells (0,0)..(0,22)) starting from the empty symbol
table inserts all 23 of them — the table ends with 23 > 22 entries, no
insertion fails, and the 23rd cell is still encoded (its packed unit
22*22+22 is appended), contradicting the claimed `SymbolTableFull`
degradation and the claimed preservation of the ≤ 22 invariant. -/
theorem offsets_overflow_counterexample :
    (updSeq ((List.range 23).map fun i => (0, i, i + 1))
      ([], MatrixData.blank)).1.length = 23 ∧
    (updSeq ((List.range 23).map fun i => (0, i, i + 1))
      ([], MatrixData.blank)).2.costMap.getLast? = some (22 * 22 + 22) := by
  decide

open Screeps in
/-- C10: the compact position identifier is lossless — decoding the id
produced for any in-room coordinate pair and any region name returns the
same x, y and region name. -/
theorem position_id_roundtrip (x y : Nat) (name : JsStr)
    (hx : x ≤ 49) (hy : y ≤ 49) :
    Navigator.positionFromId (Navigator.positionToId ⟨x, y, name⟩) =
      ⟨x, y, name⟩ := by
  have hx' : (x + 192) % 65536 = x + 192 := Nat.mod_eq_of_lt (by omega)
  have hy' : (y + 192) % 65536 = y + 192 := Nat.mod_eq_of_lt (by omega)
  simp [Navigator.positionToId, Navigator.positionFromId, hx', hy']

open Screeps in
/-- Witness for C10 at (3, 4) in the example room. -/
theorem position_id_roundtrip_witness :
    (3 : Nat) ≤ 49 ∧ (4 : Nat) ≤ 49 ∧
    Navigator.positionFromId (Navigator.positionToId ⟨3, 4, exRoom⟩) =
      ⟨3, 4, exRoom⟩ :=
  ⟨by decide, by decide, position_id_roundtrip 3 4 exRoom (by decide) (by decide)⟩

open Screeps in
/-- C6: the goal tolerance `Cartographer.getRange` passes to the search
primitive is decided by the first matching rule, in the claimed order:
explicit range option; else 1 on a terrain wall; else 0 when the goal region
is not observable; else 1 when tracking agents and an agent occupies the
goal; else 1 when a non-passable (neither road nor container) structure
occupies the goal; else 0. -/
theorem cartographer_range_priority :
    ∀ (w : World) (goal : Pos) (opts : Opts),
      Cartographer.getRange w goal opts = rangeRule w goal opts := by
  intro w goal opts
  unfold Cartographer.getRange rangeRule
  cases opts.range with
  | some r => rfl
  | none =>
    have hcreep :
        (((w.creepsAt goal.roomName).filter fun p =>
          p.1 = goal.x ∧ p.2 = goal.y) ≠ []) ↔
        ∃ p ∈ w.creepsAt goal.roomName, p.1 = goal.x ∧ p.2 = goal.y := by
      rw [Ne, List.filter_eq_nil_iff]
      push_neg
      simp
    have hstruct :
        ((((w.structuresAt goal.roomName).filter fun s =>
            s.x = goal.x ∧ s.y = goal.y).find? fun s =>
              s.kind ≠ SKind.road ∧ s.kind ≠ SKind.container).isSome) ↔
        ∃ s ∈ w.structuresAt goal.roomName,
          s.x = goal.x ∧ s.y = goal.y ∧
          s.kind ≠ SKind.road ∧ s.kind ≠ SKind.container := by
      rw [List.find?_isSome]
      constructor
      · rintro ⟨s, hs, hp⟩
        have hm := List.mem_filter.mp hs
        refine ⟨s, hm.1, ?_, ?_⟩
        · exact (by simpa using hm.2 : s.x = goal.x ∧ s.y = goal.y).1
        · constructor
          · exact (by simpa using hm.2 : s.x = goal.x ∧ s.y = goal.y).2
          · simpa using hp
      · rintro ⟨s, hs, hx, hy, hk⟩
        refine ⟨s, List.mem_filter.mpr ⟨hs, by simp [hx, hy]⟩, by simpa using hk⟩
    simp only [hcreep, hstruct]

open Screeps in
/-- C7 (code bug): `Cartographer.findPath` is meant to compute a region
route first whenever start and goal are more than 2 rooms apart and to pass
the route length as the search primitive's room limit, but the source calls
`this.findRoute`, a method the class does not define (its route method is
named `getRoute`), so every such call throws a TypeError before the search
primitive is ever invoked.  Evaluated here at a concrete pair of positions
five rooms apart. -/
theorem cartographer_findpath_findroute_missing :
    Cartographer.findPath exEnvFar ⟨25, 25, exRoom⟩ ⟨25, 25, [88]⟩ {} =
      Except.error JsErr.typeError := by
  rfl

open Screeps in
/-- C8: `Navigator.getNextMove` (when it completes without a JS exception)
fails with the non-move result `NaN` — modelled as `none`, the
`NoPathFound` outcome — exactly when the cached move sequence is empty
after any replan attempt, and otherwise returns the numeric value of the
first queued move of the cached sequence. -/
theorem navigator_next_move_shape (env : Env) (creep : Navigator.Creep)
    (goal : Pos) (opts : Opts) (cache : Navigator.NavCache)
    (res : Option Nat) (c : Navigator.NavCache) (o : Opts)
    (h : Navigator.getNextMove env creep goal opts cache =
      Except.ok (res, c, o)) :
    (c.path.getD [] = [] → res = none) ∧
    (∀ d ds, c.path = some (d :: ds) → res = some d) := by
  unfold Navigator.getNextMove at h
  set r :=
    (if ¬(Navigator.pathTruthy cache.path = true ∧
        cache.target = some (Navigator.positionToId goal)) then
      (true, cache, opts)
    else
      let a := Navigator.isAtExpected env creep cache
      if a.1 = true then
        (false, { a.2 with path := some ((a.2.path.getD []).tail) }, opts)
      else if Navigator.stuckCond a.2.stuck env.random = true then
        if opts.trackCreeps = true then (true, a.2, opts)
        else
          let mo := Navigator.moveObstruction env creep opts a.2
          (mo.1, a.2, mo.2)
      else (false, a.2, opts)) with hr
  by_cases hp : r.1 = true
  · rw [if_pos hp] at h
    cases hgp : Navigator.getNewPath env creep goal
        { r.2.1 with last := some (Navigator.positionToId creep.pos) } r.2.2 with
    | error e => rw [hgp] at h; cases h
    | ok v =>
      obtain ⟨p, c', o'⟩ := v
      rw [hgp] at h
      simp only [Except.ok.injEq, Prod.mk.injEq] at h
      obtain ⟨h1, h2, h3⟩ := h
      constructor
      · intro hcp
        rw [← h2] at hcp
        simp only [Option.getD] at hcp
        subst hcp
        rw [← h1]
        rfl
      · intro d ds hcp
        rw [← h2] at hcp
        simp only [Option.some_inj] at hcp
        rw [← h1, hcp]
        rfl
  · rw [if_neg hp] at h
    simp only [Except.ok.injEq, Prod.mk.injEq] at h
    obtain ⟨h1, h2, h3⟩ := h
    constructor
    · intro hcp
      rw [← h2] at hcp
      simp only at hcp
      rw [← h1, ← h2] at *
      cases hpath : r.2.1.path with
      | none => simp [Navigator.firstMove, hpath]
      | some l =>
        cases l with
        | nil => simp [Navigator.firstMove, hpath]
        | cons d ds => rw [hpath] at hcp; simp at hcp
    · intro d ds hcp
      rw [← h2] at hcp
      simp only at hcp
      rw [← h1, hcp]
      rfl

open Screeps in
/-- Witness for C8: a fresh agent whose replan returns an empty sequence
gets the non-move result `none`. -/
theorem navigator_next_move_shape_witness :
    (Navigator.getNextMove exEnv ⟨⟨10, 10, exRoom⟩⟩ ⟨20, 20, exRoom⟩ {} {} =
      Except.ok (none,
        ⟨some [], some [212, 212, 87], some [202, 202, 87], some 0⟩, {})) ∧
    (((⟨some [], some [212, 212, 87], some [202, 202, 87], some 0⟩ :
        Navigator.NavCache).path.getD [] = []) → (none : Option Nat) = none) := by
  have h : Navigator.getNextMove exEnv ⟨⟨10, 10, exRoom⟩⟩ ⟨20, 20, exRoom⟩ {} {} =
      Except.ok (none,
        ⟨some [], some [212, 212, 87], some [202, 202, 87], some 0⟩, {}) := by
    rfl
  exact ⟨h, (navigator_next_move_shape exEnv ⟨⟨10, 10, exRoom⟩⟩ ⟨20, 20, exRoom⟩
    {} {} none _ {} h).1⟩

namespace Screeps

/-- One stalled `getNextMove` step: with a matching target, a non-empty
cached path, a stall counter at `n ≤ 1` and the creep still at the recorded
position, the counter advances to `n + 1`, the cached path is not popped and
the first cached move is returned. -/
theorem navigator_stall_step (env : Env) (p goalp : Pos) (opts : Opts)
    (d n : Nat) (ds : List Nat) (hx : p.x ≤ 49) (hy : p.y ≤ 49)
    (hn : n ≤ 1) :
    Navigator.getNextMove env ⟨p⟩ goalp opts
        ⟨some (d :: ds), some (Navigator.positionToId goalp),
          some (Navigator.positionToId p), some n⟩ =
      Except.ok (some d,
        ⟨some (d :: ds), some (Navigator.positionToId goalp),
          some (Navigator.positionToId p), some (n + 1)⟩, opts) := by
  have hid : Navigator.positionFromId (Navigator.positionToId p) =
      ⟨p.x, p.y, p.roomName⟩ := by
    have hx' : (p.x + 192) % 65536 = p.x + 192 := Nat.mod_eq_of_lt (by omega)
    have hy' : (p.y + 192) % 65536 = p.y + 192 := Nat.mod_eq_of_lt (by omega)
    simp [Navigator.positionToId, Navigator.positionFromId, hx', hy']
  have hcond : Navigator.stuckCond (some (n + 1)) env.random = false := by
    show (decide (n + 1 > 2) &&
      decide ((50 : Int) > (env.random : Int) - ((n + 1 : Nat) : Int))) = false
    rw [decide_eq_false (by omega : ¬(n + 1 > 2))]
    simp
  unfold Navigator.getNextMove Navigator.isAtExpected
  simp [Navigator.pathTruthy, hid, hcond, Navigator.firstMove]

end Screeps

open Screeps in
/-- C9: an agent observed at its previously recorded position on two
consecutive `getNextMove` steps — with an unchanged goal, a non-empty cached
path and a freshly reset stall counter — has stall counter 2 after the
second step, and neither step consumes (pops) a move from the front of the
cached move sequence. -/
theorem navigator_stall_counter_two (env env' : Env) (p goalp : Pos)
    (opts : Opts) (d : Nat) (ds : List Nat)
    (hx : p.x ≤ 49) (hy : p.y ≤ 49) :
    Navigator.getNextMove env ⟨p⟩ goalp opts
        ⟨some (d :: ds), some (Navigator.positionToId goalp),
          some (Navigator.positionToId p), some 0⟩ =
      Except.ok (some d,
        ⟨some (d :: ds), some (Navigator.positionToId goalp),
          some (Navigator.positionToId p), some 1⟩, opts) ∧
    Navigator.getNextMove env' ⟨p⟩ goalp opts
        ⟨some (d :: ds), some (Navigator.positionToId goalp),
          some (Navigator.positionToId p), some 1⟩ =
      Except.ok (some d,
        ⟨some (d :: ds), some (Navigator.positionToId goalp),
          some (Navigator.positionToId p), some 2⟩, opts) :=
  ⟨navigator_stall_step env p goalp opts d 0 ds hx hy (by omega),
   navigator_stall_step env' p goalp opts d 1 ds hx hy (by omega)⟩

open Screeps in
/-- Witness for C9 at a concrete stalled agent. -/
theorem navigator_stall_counter_two_witness :
    (10 : Nat) ≤ 49 ∧
    (Navigator.getNextMove exEnv ⟨⟨10, 10, exRoom⟩⟩ ⟨20, 20, exRoom⟩ {}
        ⟨some [3], some (Navigator.positionToId ⟨20, 20, exRoom⟩),
          some (Navigator.positionToId ⟨10, 10, exRoom⟩), some 0⟩ =
      Except.ok (some 3,
        ⟨some [3], some (Navigator.positionToId ⟨20, 20, exRoom⟩),
          some (Navigator.positionToId ⟨10, 10, exRoom⟩), some 1⟩, {}) ∧
    Navigator.getNextMove exEnv ⟨⟨10, 10, exRoom⟩⟩ ⟨20, 20, exRoom⟩ {}
        ⟨some [3], some (Navigator.positionToId ⟨20, 20, exRoom⟩),
          some (Navigator.positionToId ⟨10, 10, exRoom⟩), some 1⟩ =
      Except.ok (some 3,
        ⟨some [3], some (Navigator.positionToId ⟨20, 20, exRoom⟩),
          some (Navigator.positionToId ⟨10, 10, exRoom⟩), some 2⟩, {})) :=
  ⟨by decide,
   navigator_stall_counter_two exEnv exEnv ⟨10, 10, exRoom⟩ ⟨20, 20, exRoom⟩
     {} 3 [] (by decide) (by decide)⟩

namespace Screeps

theorem reset_nextStamp (w : World) (s : AtlasState) :
    (Atlas.reset w s).nextStamp = s.nextStamp := by
  simp only [Atlas.reset]
  split <;> rfl

theorem reset_store (w : World) (s : AtlasState) :
    (Atlas.reset w s).store = s.store := by
  simp only [Atlas.reset]
  split <;> rfl

theorem reset_offsets (w : World) (s : AtlasState) :
    (Atlas.reset w s).offsets = s.offsets := by
  simp only [Atlas.reset]
  split <;> rfl

theorem reset_lastReset (w : World) (s : AtlasState) :
    (Atlas.reset w s).lastReset = w.time := by
  simp only [Atlas.reset]

theorem reset_costsRoom (w : World) (s : AtlasState) (r : JsStr) :
    (Atlas.reset w s).costsRoom r = none := by
  simp only [Atlas.reset]

theorem reset_costsCreep (w : World) (s : AtlasState) (r : JsStr) :
    (Atlas.reset w s).costsCreep r =
      if (s.costsRoom r).isSome then none else s.costsCreep r := by
  simp only [Atlas.reset]
  split <;> rfl

theorem reset_packed_none (w : World) (s : AtlasState) (r : JsStr)
    (h : s.packed r = none) : (Atlas.reset w s).packed r = none := by
  simp only [Atlas.reset]
  split
  · simp only
    split <;> [rfl; exact h]
  · exact h

theorem refresh_nextStamp (w : World) (s : AtlasState) (id : JsStr)
    (opts : Opts) : (Atlas.refresh w s id opts).nextStamp = s.nextStamp + 1 := by
  simp only [Atlas.refresh]
  split <;> rfl

theorem refresh_lastReset (w : World) (s : AtlasState) (id : JsStr)
    (opts : Opts) : (Atlas.refresh w s id opts).lastReset = s.lastReset := by
  simp only [Atlas.refresh]
  split <;> rfl

theorem refresh_costsCreep (w : World) (s : AtlasState) (id : JsStr)
    (opts : Opts) : (Atlas.refresh w s id opts).costsCreep = s.costsCreep := by
  simp only [Atlas.refresh]
  split <;> rfl

theorem refresh_costsRoom_self (w : World) (s : AtlasState) (id : JsStr)
    (opts : Opts) :
    (Atlas.refresh w s id opts).costsRoom id = some s.nextStamp := by
  simp only [Atlas.refresh]
  split <;> simp

theorem refresh_costsRoom_other (w : World) (s : AtlasState) (id r : JsStr)
    (opts : Opts) (h : r ≠ id) :
    (Atlas.refresh w s id opts).costsRoom r = s.costsRoom r := by
  simp only [Atlas.refresh]
  split <;> simp [h]

theorem refresh_packed_isSome_of_vis (w : World) (s : AtlasState) (id : JsStr)
    (opts : Opts) (h : id ∈ w.rooms) :
    ((Atlas.refresh w s id opts).packed id).isSome := by
  simp only [Atlas.refresh]
  rw [if_neg (by simpa using h)]
  simp

theorem refresh_packed_of_invis (w : World) (s : AtlasState) (id : JsStr)
    (opts : Opts) (h : id ∉ w.rooms) :
    (Atlas.refresh w s id opts).packed = s.packed := by
  simp only [Atlas.refresh]
  rw [if_pos h]

theorem refresh_store_blank_of_invis (w : World) (s : AtlasState) (id : JsStr)
    (opts : Opts) (h : id ∉ w.rooms) :
    (Atlas.refresh w s id opts).store s.nextStamp = Packed.MatrixData.blank := by
  simp only [Atlas.refresh]
  rw [if_pos h]
  simp

theorem step3_packed (s : AtlasState) (id : JsStr) :
    (Atlas.step3 s id).packed = s.packed := by
  unfold Atlas.step3
  split <;> rfl

theorem step3_lastReset (s : AtlasState) (id : JsStr) :
    (Atlas.step3 s id).lastReset = s.lastReset := by
  unfold Atlas.step3
  split <;> rfl

theorem step3_costsCreep (s : AtlasState) (id : JsStr) :
    (Atlas.step3 s id).costsCreep = s.costsCreep := by
  unfold Atlas.step3
  split <;> rfl

theorem step3_nextStamp_ge (s : AtlasState) (id : JsStr) :
    s.nextStamp ≤ (Atlas.step3 s id).nextStamp := by
  unfold Atlas.step3
  split
  · exact le_refl _
  · exact Nat.le_succ _

theorem step3_costsRoom_isSome (s : AtlasState) (id : JsStr) :
    ((Atlas.step3 s id).costsRoom id).isSome := by
  unfold Atlas.step3
  split
  · simp_all
  · simp

theorem step3_eq_of_isSome (s : AtlasState) (id : JsStr)
    (h : (s.costsRoom id).isSome) : Atlas.step3 s id = s := by
  unfold Atlas.step3
  cases hc : s.costsRoom id with
  | some st => rfl
  | none => rw [hc] at h; cases h

theorem addCreeps_fst (w : World) (s : AtlasState) (id : JsStr) :
    (Atlas.addCreeps w s id).1 = s.nextStamp := rfl

theorem addCreeps_nextStamp (w : World) (s : AtlasState) (id : JsStr) :
    (Atlas.addCreeps w s id).2.nextStamp = s.nextStamp + 1 := rfl

theorem addCreeps_packed (w : World) (s : AtlasState) (id : JsStr) :
    (Atlas.addCreeps w s id).2.packed = s.packed := rfl

theorem addCreeps_costsRoom (w : World) (s : AtlasState) (id : JsStr) :
    (Atlas.addCreeps w s id).2.costsRoom = s.costsRoom := rfl

theorem addCreeps_lastReset (w : World) (s : AtlasState) (id : JsStr) :
    (Atlas.addCreeps w s id).2.lastReset = s.lastReset := rfl

theorem addCreeps_costsCreep_self (w : World) (s : AtlasState) (id : JsStr) :
    (Atlas.addCreeps w s id).2.costsCreep id = some s.nextStamp := by
  simp [Atlas.addCreeps]

end Screeps

namespace Screeps

theorem refresh_costsRoom (w : World) (s : AtlasState) (id : JsStr)
    (opts : Opts) :
    (Atlas.refresh w s id opts).costsRoom =
      fun r => if r = id then some s.nextStamp else s.costsRoom r := by
  simp only [Atlas.refresh]
  split <;> rfl

theorem step1_lastReset (w : World) (s : AtlasState) :
    ¬((Atlas.step1 w s).lastReset < w.time) := by
  unfold Atlas.step1
  by_cases h : s.lastReset < w.time
  · rw [if_pos h, reset_lastReset]
    omega
  · rw [if_neg h]
    exact h

theorem step1_nextStamp (w : World) (s : AtlasState) :
    (Atlas.step1 w s).nextStamp = s.nextStamp := by
  unfold Atlas.step1
  by_cases h : s.lastReset < w.time
  · rw [if_pos h, reset_nextStamp]
  · rw [if_neg h]

theorem step2_lastReset (w : World) (s : AtlasState) (id : JsStr)
    (opts : Opts) :
    (Atlas.step2 w s id opts).lastReset = s.lastReset := by
  unfold Atlas.step2
  split
  · rw [refresh_lastReset]
  · rfl

theorem step2_nextStamp_ge (w : World) (s : AtlasState) (id : JsStr)
    (opts : Opts) : s.nextStamp ≤ (Atlas.step2 w s id opts).nextStamp := by
  unfold Atlas.step2
  split
  · rw [refresh_nextStamp]
    omega
  · exact le_refl _

theorem step2_packed_isSome (w : World) (s : AtlasState) (id : JsStr)
    (opts : Opts) (hvis : id ∈ w.rooms) :
    ((Atlas.step2 w s id opts).packed id).isSome := by
  unfold Atlas.step2
  split
  · exact refresh_packed_isSome_of_vis w s id opts hvis
  · rename_i h
    push_neg at h
    rw [Option.isSome_iff_ne_none]
    intro hn
    exact h.1 (by simp [hn])

theorem step2_costsCreep (w : World) (s : AtlasState) (id : JsStr)
    (opts : Opts) :
    (Atlas.step2 w s id opts).costsCreep = s.costsCreep := by
  unfold Atlas.step2
  split
  · rw [refresh_costsCreep]
  · rfl

theorem step3_costsRoom_at (s : AtlasState) (id r : JsStr) :
    (Atlas.step3 s id).costsRoom r =
      if (s.costsRoom id).isSome then s.costsRoom r
      else if r = id then some s.nextStamp else s.costsRoom r := by
  unfold Atlas.step3
  cases hc : s.costsRoom id with
  | some st => simp [hc]
  | none => simp [hc]

theorem step3_nextStamp (s : AtlasState) (id : JsStr) :
    (Atlas.step3 s id).nextStamp =
      if (s.costsRoom id).isSome then s.nextStamp else s.nextStamp + 1 := by
  unfold Atlas.step3
  cases hc : s.costsRoom id with
  | some st => simp [hc]
  | none => simp [hc]

theorem refresh_costsRoom_at (w : World) (s : AtlasState) (id r : JsStr)
    (opts : Opts) :
    (Atlas.refresh w s id opts).costsRoom r =
      if r = id then some s.nextStamp else s.costsRoom r := by
  rw [refresh_costsRoom]

theorem atlasWF_reset (w : World) (s : AtlasState) (h : AtlasWF s) :
    AtlasWF (Atlas.reset w s) := by
  obtain ⟨h1, h2, h3⟩ := h
  refine ⟨?_, ?_, ?_⟩
  · intro r st hr
    rw [reset_costsRoom] at hr
    cases hr
  · intro r st hr
    rw [reset_costsCreep] at hr
    rw [reset_nextStamp]
    by_cases hc : (s.costsRoom r).isSome
    · rw [if_pos hc] at hr
      cases hr
    · rw [if_neg hc] at hr
      exact h2 r st hr
  · intro r hr
    rw [reset_costsCreep] at hr
    by_cases hc : (s.costsRoom r).isSome
    · rw [if_pos hc] at hr
      cases hr
    · rw [if_neg hc] at hr
      exact absurd (h3 r hr) hc

theorem reset_costsCreep_none (w : World) (s : AtlasState) (h : AtlasWF s)
    (r : JsStr) : (Atlas.reset w s).costsCreep r = none := by
  rw [reset_costsCreep]
  by_cases hc : (s.costsRoom r).isSome
  · rw [if_pos hc]
  · rw [if_neg hc]
    cases hcc : s.costsCreep r with
    | none => rfl
    | some st => exact absurd (h.2.2 r (by simp [hcc])) hc

theorem atlasWF_refresh (w : World) (s : AtlasState) (id : JsStr)
    (opts : Opts) (h : AtlasWF s) : AtlasWF (Atlas.refresh w s id opts) := by
  obtain ⟨h1, h2, h3⟩ := h
  refine ⟨?_, ?_, ?_⟩
  · intro r st hr
    rw [refresh_costsRoom_at] at hr
    rw [refresh_nextStamp]
    by_cases he : r = id
    · rw [if_pos he] at hr
      cases hr
      omega
    · rw [if_neg he] at hr
      exact lt_trans (h1 r st hr) (Nat.lt_succ_self _)
  · intro r st hr
    rw [refresh_costsCreep] at hr
    rw [refresh_nextStamp]
    exact lt_trans (h2 r st hr) (Nat.lt_succ_self _)
  · intro r hr
    rw [refresh_costsCreep] at hr
    rw [refresh_costsRoom_at]
    by_cases he : r = id
    · rw [if_pos he]
      simp
    · rw [if_neg he]
      exact h3 r hr

theorem atlasWF_step1 (w : World) (s : AtlasState) (h : AtlasWF s) :
    AtlasWF (Atlas.step1 w s) := by
  unfold Atlas.step1
  by_cases hl : s.lastReset < w.time
  · rw [if_pos hl]
    exact atlasWF_reset w s h
  · rw [if_neg hl]
    exact h

theorem atlasWF_step2 (w : World) (s : AtlasState) (id : JsStr) (opts : Opts)
    (h : AtlasWF s) : AtlasWF (Atlas.step2 w s id opts) := by
  unfold Atlas.step2
  split
  · exact atlasWF_refresh w s id opts h
  · exact h

theorem atlasWF_step3 (s : AtlasState) (id : JsStr) (h : AtlasWF s) :
    AtlasWF (Atlas.step3 s id) := by
  obtain ⟨h1, h2, h3⟩ := h
  by_cases hc : (s.costsRoom id).isSome
  · refine ⟨?_, ?_, ?_⟩
    · intro r st hr
      rw [step3_costsRoom_at, if_pos hc] at hr
      rw [step3_nextStamp, if_pos hc]
      exact h1 r st hr
    · intro r st hr
      rw [step3_costsCreep] at hr
      rw [step3_nextStamp, if_pos hc]
      exact h2 r st hr
    · intro r hr
      rw [step3_costsCreep] at hr
      rw [step3_costsRoom_at, if_pos hc]
      exact h3 r hr
  · refine ⟨?_, ?_, ?_⟩
    · intro r st hr
      rw [step3_costsRoom_at, if_neg hc] at hr
      rw [step3_nextStamp, if_neg hc]
      by_cases he : r = id
      · rw [if_pos he] at hr
        cases hr
        omega
      · rw [if_neg he] at hr
        exact lt_trans (h1 r st hr) (Nat.lt_succ_self _)
    · intro r st hr
      rw [step3_costsCreep] at hr
      rw [step3_nextStamp, if_neg hc]
      exact lt_trans (h2 r st hr) (Nat.lt_succ_self _)
    · intro r hr
      rw [step3_costsCreep] at hr
      rw [step3_costsRoom_at, if_neg hc]
      by_cases he : r = id
      · rw [if_pos he]
        simp
      · rw [if_neg he]
        exact h3 r hr

theorem atlasWF_addCreeps (w : World) (s : AtlasState) (id : JsStr)
    (h : AtlasWF s) (hbase : (s.costsRoom id).isSome) :
    AtlasWF (Atlas.addCreeps w s id).2 := by
  obtain ⟨h1, h2, h3⟩ := h
  refine ⟨?_, ?_, ?_⟩
  · intro r st hr
    rw [addCreeps_costsRoom] at hr
    rw [addCreeps_nextStamp]
    exact lt_trans (h1 r st hr) (Nat.lt_succ_self _)
  · intro r st hr
    simp only [Atlas.addCreeps] at hr
    rw [addCreeps_nextStamp]
    by_cases he : r = id
    · rw [if_pos he] at hr
      cases hr
      omega
    · rw [if_neg he] at hr
      exact lt_trans (h2 r st hr) (Nat.lt_succ_self _)
  · intro r hr
    simp only [Atlas.addCreeps] at hr
    rw [addCreeps_costsRoom]
    by_cases he : r = id
    · rw [he]
      exact hbase
    · rw [if_neg he] at hr
      exact h3 r hr

end Screeps

namespace Screeps

theorem getCosts_eq_nontrack (w : World) (s : AtlasState) (id : JsStr)
    (opts : Opts) (h : ¬(opts.trackCreeps = true ∧ id ∈ w.rooms)) :
    Atlas.getCosts w s id opts =
      (((Atlas.step3 (Atlas.step2 w (Atlas.step1 w s) id opts) id).costsRoom
          id).getD 0,
        Atlas.step3 (Atlas.step2 w (Atlas.step1 w s) id opts) id) := by
  unfold Atlas.getCosts
  rw [if_pos h]

theorem getCosts_eq_track (w : World) (s : AtlasState) (id : JsStr)
    (opts : Opts) (htr : opts.trackCreeps = true) (hvis : id ∈ w.rooms) :
    Atlas.getCosts w s id opts =
      match (Atlas.step3 (Atlas.step2 w (Atlas.step1 w s) id opts)
          id).costsCreep id with
      | some st => (st, Atlas.step3 (Atlas.step2 w (Atlas.step1 w s) id opts) id)
      | none => Atlas.addCreeps w
          (Atlas.step3 (Atlas.step2 w (Atlas.step1 w s) id opts) id) id := by
  unfold Atlas.getCosts
  rw [if_neg (by simp [htr, hvis])]

theorem getCosts_lastReset (w : World) (s : AtlasState) (id : JsStr)
    (opts : Opts) : ¬((Atlas.getCosts w s id opts).2.lastReset < w.time) := by
  have h3 : ¬((Atlas.step3 (Atlas.step2 w (Atlas.step1 w s) id opts)
      id).lastReset < w.time) := by
    rw [step3_lastReset, step2_lastReset]
    exact step1_lastReset w s
  by_cases h : opts.trackCreeps = true ∧ id ∈ w.rooms
  · rw [getCosts_eq_track w s id opts h.1 h.2]
    cases hcc : (Atlas.step3 (Atlas.step2 w (Atlas.step1 w s) id opts)
        id).costsCreep id with
    | some st => exact h3
    | none =>
      show ¬((Atlas.addCreeps w _ id).2.lastReset < w.time)
      rw [addCreeps_lastReset]
      exact h3
  · rw [getCosts_eq_nontrack w s id opts h]
    exact h3

theorem getCosts_packed_isSome (w : World) (s : AtlasState) (id : JsStr)
    (opts : Opts) (hvis : id ∈ w.rooms) :
    ((Atlas.getCosts w s id opts).2.packed id).isSome := by
  have h3 : ((Atlas.step3 (Atlas.step2 w (Atlas.step1 w s) id opts)
      id).packed id).isSome := by
    rw [step3_packed]
    exact step2_packed_isSome w _ id opts hvis
  by_cases h : opts.trackCreeps = true ∧ id ∈ w.rooms
  · rw [getCosts_eq_track w s id opts h.1 h.2]
    cases hcc : (Atlas.step3 (Atlas.step2 w (Atlas.step1 w s) id opts)
        id).costsCreep id with
    | some st => exact h3
    | none =>
      show ((Atlas.addCreeps w _ id).2.packed id).isSome
      rw [addCreeps_packed]
      exact h3
  · rw [getCosts_eq_nontrack w s id opts h]
    exact h3

theorem getCosts_costsRoom_isSome (w : World) (s : AtlasState) (id : JsStr)
    (opts : Opts) : ((Atlas.getCosts w s id opts).2.costsRoom id).isSome := by
  have h3 : ((Atlas.step3 (Atlas.step2 w (Atlas.step1 w s) id opts)
      id).costsRoom id).isSome := step3_costsRoom_isSome _ id
  by_cases h : opts.trackCreeps = true ∧ id ∈ w.rooms
  · rw [getCosts_eq_track w s id opts h.1 h.2]
    cases hcc : (Atlas.step3 (Atlas.step2 w (Atlas.step1 w s) id opts)
        id).costsCreep id with
    | some st => exact h3
    | none =>
      show ((Atlas.addCreeps w _ id).2.costsRoom id).isSome
      rw [addCreeps_costsRoom]
      exact h3
  · rw [getCosts_eq_nontrack w s id opts h]
    exact h3

theorem getCosts_ret_eq_costsRoom (w : World) (s : AtlasState) (id : JsStr)
    (opts : Opts) (h : ¬(opts.trackCreeps = true ∧ id ∈ w.rooms)) :
    (Atlas.getCosts w s id opts).1 =
      ((Atlas.getCosts w s id opts).2.costsRoom id).getD 0 := by
  rw [getCosts_eq_nontrack w s id opts h]

theorem getCosts_costsCreep_ret (w : World) (s : AtlasState) (id : JsStr)
    (opts : Opts) (htr : opts.trackCreeps = true) (hvis : id ∈ w.rooms) :
    (Atlas.getCosts w s id opts).2.costsCreep id =
      some (Atlas.getCosts w s id opts).1 := by
  rw [getCosts_eq_track w s id opts htr hvis]
  cases hcc : (Atlas.step3 (Atlas.step2 w (Atlas.step1 w s) id opts)
      id).costsCreep id with
  | some st => exact hcc
  | none =>
    show (Atlas.addCreeps w _ id).2.costsCreep id =
      some (Atlas.addCreeps w _ id).1
    rw [addCreeps_costsCreep_self, addCreeps_fst]

theorem atlasWF_getCosts (w : World) (s : AtlasState) (id : JsStr)
    (opts : Opts) (hwf : AtlasWF s) :
    AtlasWF (Atlas.getCosts w s id opts).2 := by
  have h3 : AtlasWF (Atlas.step3 (Atlas.step2 w (Atlas.step1 w s) id opts) id) :=
    atlasWF_step3 _ id (atlasWF_step2 w _ id opts (atlasWF_step1 w s hwf))
  by_cases h : opts.trackCreeps = true ∧ id ∈ w.rooms
  · rw [getCosts_eq_track w s id opts h.1 h.2]
    cases hcc : (Atlas.step3 (Atlas.step2 w (Atlas.step1 w s) id opts)
        id).costsCreep id with
    | some st => exact h3
    | none =>
      show AtlasWF (Atlas.addCreeps w _ id).2
      exact atlasWF_addCreeps w _ id h3 (step3_costsRoom_isSome _ id)
  · rw [getCosts_eq_nontrack w s id opts h]
    exact h3

theorem getCosts_ret_lt (w : World) (s : AtlasState) (id : JsStr)
    (opts : Opts) (hwf : AtlasWF s) :
    (Atlas.getCosts w s id opts).1 < (Atlas.getCosts w s id opts).2.nextStamp := by
  have h3 : AtlasWF (Atlas.step3 (Atlas.step2 w (Atlas.step1 w s) id opts) id) :=
    atlasWF_step3 _ id (atlasWF_step2 w _ id opts (atlasWF_step1 w s hwf))
  by_cases h : opts.trackCreeps = true ∧ id ∈ w.rooms
  · rw [getCosts_eq_track w s id opts h.1 h.2]
    cases hcc : (Atlas.step3 (Atlas.step2 w (Atlas.step1 w s) id opts)
        id).costsCreep id with
    | some st => exact h3.2.1 id st hcc
    | none =>
      show (Atlas.addCreeps w _ id).1 < (Atlas.addCreeps w _ id).2.nextStamp
      rw [addCreeps_fst, addCreeps_nextStamp]
      omega
  · rw [getCosts_eq_nontrack w s id opts h]
    cases hcr : (Atlas.step3 (Atlas.step2 w (Atlas.step1 w s) id opts)
        id).costsRoom id with
    | some b => exact h3.1 id b hcr
    | none =>
      exact absurd (step3_costsRoom_isSome _ id) (by rw [hcr]; simp)

end Screeps

namespace Screeps

theorem getCosts_fresh (w : World) (t : AtlasState) (id : JsStr) (opts : Opts)
    (hwf : AtlasWF t) (hst : t.lastReset < w.time) :
    t.nextStamp ≤ (Atlas.getCosts w t id opts).1 := by
  have hstep1 : Atlas.step1 w t = Atlas.reset w t := by
    unfold Atlas.step1
    rw [if_pos hst]
  have hcr1 : ∀ r, (Atlas.reset w t).costsRoom r = none := reset_costsRoom w t
  have hcc1 : ∀ r, (Atlas.reset w t).costsCreep r = none :=
    reset_costsCreep_none w t hwf
  have hns1 : (Atlas.reset w t).nextStamp = t.nextStamp := reset_nextStamp w t
  by_cases hcond : ((Atlas.reset w t).packed id).isNone = true ∨
      opts.refreshMatrix = true
  · -- step2 runs refresh
    have hstep2 : Atlas.step2 w (Atlas.reset w t) id opts =
        Atlas.refresh w (Atlas.reset w t) id opts := by
      unfold Atlas.step2
      rw [if_pos hcond]
    have hcr2 : (Atlas.refresh w (Atlas.reset w t) id opts).costsRoom id =
        some t.nextStamp := by
      rw [refresh_costsRoom_at, if_pos rfl, hns1]
    have hstep3 : Atlas.step3 (Atlas.refresh w (Atlas.reset w t) id opts) id =
        Atlas.refresh w (Atlas.reset w t) id opts :=
      step3_eq_of_isSome _ _ (by rw [hcr2]; rfl)
    have hcc2 : (Atlas.refresh w (Atlas.reset w t) id opts).costsCreep id =
        none := by
      rw [refresh_costsCreep]
      exact hcc1 id
    have hns2 : (Atlas.refresh w (Atlas.reset w t) id opts).nextStamp =
        t.nextStamp + 1 := by
      rw [refresh_nextStamp, hns1]
    by_cases hbr : opts.trackCreeps = true ∧ id ∈ w.rooms
    · rw [getCosts_eq_track w t id opts hbr.1 hbr.2, hstep1, hstep2, hstep3,
        hcc2]
      show t.nextStamp ≤ (Atlas.addCreeps w _ id).1
      rw [addCreeps_fst, hns2]
      omega
    · rw [getCosts_eq_nontrack w t id opts hbr, hstep1, hstep2, hstep3]
      simp only [hcr2]
      exact le_refl _
  · -- step2 is skipped, step3 materializes a fresh matrix
    have hstep2 : Atlas.step2 w (Atlas.reset w t) id opts = Atlas.reset w t := by
      unfold Atlas.step2
      rw [if_neg hcond]
    have hcr3 : (Atlas.step3 (Atlas.reset w t) id).costsRoom id =
        some t.nextStamp := by
      rw [step3_costsRoom_at, hcr1 id]
      simp [hns1]
    have hcc3 : (Atlas.step3 (Atlas.reset w t) id).costsCreep id = none := by
      rw [step3_costsCreep]
      exact hcc1 id
    have hns3 : (Atlas.step3 (Atlas.reset w t) id).nextStamp =
        t.nextStamp + 1 := by
      rw [step3_nextStamp, hcr1 id]
      simp [hns1]
    by_cases hbr : opts.trackCreeps = true ∧ id ∈ w.rooms
    · rw [getCosts_eq_track w t id opts hbr.1 hbr.2, hstep1, hstep2, hcc3]
      show t.nextStamp ≤ (Atlas.addCreeps w _ id).1
      rw [addCreeps_fst, hns3]
      omega
    · rw [getCosts_eq_nontrack w t id opts hbr, hstep1, hstep2]
      simp only [hcr3]
      exact le_refl _

end Screeps

open Screeps in
/-- C3 (amended): for an observable region and fixed options that do not
force a refresh (`refreshMatrix` unset), two `getCosts` calls within the
same step counter value return the same grid instance and the second call
rebuilds nothing — it leaves the module state untouched; the returned
instance was allocated before the call's final allocation counter, and any
call made after the step counter has advanced past the recorded epoch
returns a freshly allocated (rebuilt) per-step grid instance. -/
theorem atlas_getcosts_epoch_cache (w : World) (s : AtlasState) (id : JsStr)
    (opts : Opts) (hvis : id ∈ w.rooms) (href : opts.refreshMatrix = false)
    (hwf : AtlasWF s) :
    Atlas.getCosts w (Atlas.getCosts w s id opts).2 id opts =
      Atlas.getCosts w s id opts ∧
    (Atlas.getCosts w s id opts).1 < (Atlas.getCosts w s id opts).2.nextStamp ∧
    ∀ w' : World, (Atlas.getCosts w s id opts).2.lastReset < w'.time →
      (Atlas.getCosts w s id opts).2.nextStamp ≤
        (Atlas.getCosts w' (Atlas.getCosts w s id opts).2 id opts).1 := by
  refine ⟨?_, getCosts_ret_lt w s id opts hwf, ?_⟩
  · have e1 : Atlas.step1 w (Atlas.getCosts w s id opts).2 =
        (Atlas.getCosts w s id opts).2 := by
      unfold Atlas.step1
      rw [if_neg (getCosts_lastReset w s id opts)]
    have e2 : Atlas.step2 w (Atlas.getCosts w s id opts).2 id opts =
        (Atlas.getCosts w s id opts).2 := by
      unfold Atlas.step2
      have hps := getCosts_packed_isSome w s id opts hvis
      rw [if_neg ?_]
      intro hc
      rcases hc with hc | hc
      · rw [Option.isNone_iff_eq_none] at hc
        rw [hc] at hps
        simp at hps
      · rw [href] at hc
        cases hc
    have e3 : Atlas.step3 (Atlas.getCosts w s id opts).2 id =
        (Atlas.getCosts w s id opts).2 :=
      step3_eq_of_isSome _ _ (getCosts_costsRoom_isSome w s id opts)
    by_cases h : opts.trackCreeps = true ∧ id ∈ w.rooms
    · rw [getCosts_eq_track w (Atlas.getCosts w s id opts).2 id opts h.1 h.2,
        e1, e2, e3, getCosts_costsCreep_ret w s id opts h.1 h.2]
    · rw [getCosts_eq_nontrack w (Atlas.getCosts w s id opts).2 id opts h,
        e1, e2, e3, ← getCosts_ret_eq_costsRoom w s id opts h]
  · intro w' hst
    exact getCosts_fresh w' (Atlas.getCosts w s id opts).2 id opts
      (atlasWF_getCosts w s id opts hwf) hst

open Screeps in
/-- C3 counterexample: with `refreshMatrix` set — a legal fixed options
value, identical in both calls — two same-tick `getCosts` calls for the same
visible region return different grid instances: each call rebuilds, so the
claim quantified over every option value is false. -/
theorem atlas_getcosts_duplicate_rebuild_counterexample :
    (Atlas.getCosts exWorldVis
        (Atlas.getCosts exWorldVis (AtlasState.init 1) exRoom
          { refreshMatrix := true }).2 exRoom { refreshMatrix := true }).1 ≠
      (Atlas.getCosts exWorldVis (AtlasState.init 1) exRoom
        { refreshMatrix := true }).1 := by
  decide

open Screeps in
/-- Witness for C3 (amended) at the example visible world and default
options, starting from the freshly loaded module state. -/
theorem atlas_getcosts_epoch_cache_witness :
    exRoom ∈ exWorldVis.rooms ∧
    Atlas.getCosts exWorldVis
        (Atlas.getCosts exWorldVis (AtlasState.init 1) exRoom {}).2 exRoom {} =
      Atlas.getCosts exWorldVis (AtlasState.init 1) exRoom {} := by
  have hwf : AtlasWF (AtlasState.init 1) :=
    And.intro (fun r st h => nomatch h)
      (And.intro (fun r st h => nomatch h) (fun r h => nomatch h))
  exact ⟨by decide,
    (atlas_getcosts_epoch_cache exWorldVis (AtlasState.init 1) exRoom {}
      (by decide) rfl hwf).1⟩

namespace Screeps

theorem setCell_packed (s : AtlasState) (stamp x y cost : Nat) :
    (Atlas.setCell s stamp x y cost).packed = s.packed := rfl

theorem setCell_lastReset (s : AtlasState) (stamp x y cost : Nat) :
    (Atlas.setCell s stamp x y cost).lastReset = s.lastReset := rfl

theorem setCell_costsRoom (s : AtlasState) (stamp x y cost : Nat) :
    (Atlas.setCell s stamp x y cost).costsRoom = s.costsRoom := rfl

theorem setCell_costsCreep (s : AtlasState) (stamp x y cost : Nat) :
    (Atlas.setCell s stamp x y cost).costsCreep = s.costsCreep := rfl

theorem setCell_store_other (s : AtlasState) (stamp x y cost n : Nat)
    (h : ¬n = stamp) : (Atlas.setCell s stamp x y cost).store n = s.store n := by
  unfold Atlas.setCell
  simp [h]

end Screeps

open Screeps in
/-- C4 (amended): for an observable region with agent tracking enabled (and
no overlay cached for the region yet this step), `getCosts` returns a clone
— an instance distinct from the shared per-step base grid; mutating any cell
of the returned overlay leaves the durable compressed store untouched and
leaves every cell of the base grid unchanged, so a subsequent non-tracking
`getCosts` call for the same region in the same step returns the base
instance with values identical to those before the mutation. -/
theorem atlas_overlay_isolated (w : World) (s : AtlasState) (id : JsStr)
    (opts : Opts) (hvis : id ∈ w.rooms) (htr : opts.trackCreeps = true)
    (hwf : AtlasWF s) (hov : s.costsCreep id = none) :
    (Atlas.getCosts w s id opts).1 ≠
      ((Atlas.getCosts w s id opts).2.costsRoom id).getD 0 ∧
    ∀ x y v : Nat,
      (Atlas.setCell (Atlas.getCosts w s id opts).2
          (Atlas.getCosts w s id opts).1 x y v).packed =
        (Atlas.getCosts w s id opts).2.packed ∧
      (∀ n, ((Atlas.setCell (Atlas.getCosts w s id opts).2
            (Atlas.getCosts w s id opts).1 x y v).store
          (((Atlas.getCosts w s id opts).2.costsRoom id).getD 0)).bits n =
        (((Atlas.getCosts w s id opts).2.store
          (((Atlas.getCosts w s id opts).2.costsRoom id).getD 0)).bits n)) ∧
      ∀ opts2 : Opts, opts2.trackCreeps = false → opts2.refreshMatrix = false →
        (Atlas.getCosts w (Atlas.setCell (Atlas.getCosts w s id opts).2
            (Atlas.getCosts w s id opts).1 x y v) id opts2).1 =
          ((Atlas.getCosts w s id opts).2.costsRoom id).getD 0 ∧
        ∀ n, ((Atlas.getCosts w (Atlas.setCell (Atlas.getCosts w s id opts).2
              (Atlas.getCosts w s id opts).1 x y v) id opts2).2.store
            (Atlas.getCosts w (Atlas.setCell (Atlas.getCosts w s id opts).2
              (Atlas.getCosts w s id opts).1 x y v) id opts2).1).bits n =
          (((Atlas.getCosts w s id opts).2.store
            (((Atlas.getCosts w s id opts).2.costsRoom id).getD 0)).bits n) := by
  have hwf3 : AtlasWF (Atlas.step3 (Atlas.step2 w (Atlas.step1 w s) id opts) id) :=
    atlasWF_step3 _ id (atlasWF_step2 w _ id opts (atlasWF_step1 w s hwf))
  have hcc3 : (Atlas.step3 (Atlas.step2 w (Atlas.step1 w s) id opts)
      id).costsCreep id = none := by
    rw [step3_costsCreep, step2_costsCreep]
    unfold Atlas.step1
    by_cases hl : s.lastReset < w.time
    · rw [if_pos hl, reset_costsCreep]
      by_cases hc : (s.costsRoom id).isSome
      · rw [if_pos hc]
      · rw [if_neg hc]
        exact hov
    · rw [if_neg hl]
      exact hov
  have hform : Atlas.getCosts w s id opts =
      Atlas.addCreeps w
        (Atlas.step3 (Atlas.step2 w (Atlas.step1 w s) id opts) id) id := by
    rw [getCosts_eq_track w s id opts htr hvis, hcc3]
  obtain ⟨b0, hb0⟩ := Option.isSome_iff_exists.mp
    (step3_costsRoom_isSome (Atlas.step2 w (Atlas.step1 w s) id opts) id)
  have hret : (Atlas.getCosts w s id opts).1 =
      (Atlas.step3 (Atlas.step2 w (Atlas.step1 w s) id opts) id).nextStamp := by
    rw [hform, addCreeps_fst]
  have hbase : (Atlas.getCosts w s id opts).2.costsRoom id = some b0 := by
    rw [hform, addCreeps_costsRoom]
    exact hb0
  have hblt : b0 <
      (Atlas.step3 (Atlas.step2 w (Atlas.step1 w s) id opts) id).nextStamp :=
    hwf3.1 id b0 hb0
  have hne : ¬b0 = (Atlas.getCosts w s id opts).1 := by
    rw [hret]
    omega
  refine ⟨?_, ?_⟩
  · rw [hret, hbase]
    simp only [Option.getD_some]
    omega
  · intro x y v
    refine ⟨rfl, ?_, ?_⟩
    · intro n
      rw [hbase]
      simp only [Option.getD_some]
      rw [setCell_store_other _ _ _ _ _ _ hne]
    · intro opts2 h2t h2r
      have e1 : Atlas.step1 w (Atlas.setCell (Atlas.getCosts w s id opts).2
          (Atlas.getCosts w s id opts).1 x y v) =
          Atlas.setCell (Atlas.getCosts w s id opts).2
            (Atlas.getCosts w s id opts).1 x y v := by
        unfold Atlas.step1
        rw [if_neg ?_]
        show ¬((Atlas.setCell (Atlas.getCosts w s id opts).2
          (Atlas.getCosts w s id opts).1 x y v).lastReset < w.time)
        rw [setCell_lastReset]
        exact getCosts_lastReset w s id opts
      have e2 : Atlas.step2 w (Atlas.setCell (Atlas.getCosts w s id opts).2
          (Atlas.getCosts w s id opts).1 x y v) id opts2 =
          Atlas.setCell (Atlas.getCosts w s id opts).2
            (Atlas.getCosts w s id opts).1 x y v := by
        unfold Atlas.step2
        rw [if_neg ?_]
        have hps := getCosts_packed_isSome w s id opts hvis
        intro hc
        rcases hc with hc | hc
        · rw [setCell_packed, Option.isNone_iff_eq_none] at hc
          rw [hc] at hps
          simp at hps
        · rw [h2r] at hc
          cases hc
      have e3 : Atlas.step3 (Atlas.setCell (Atlas.getCosts w s id opts).2
          (Atlas.getCosts w s id opts).1 x y v) id =
          Atlas.setCell (Atlas.getCosts w s id opts).2
            (Atlas.getCosts w s id opts).1 x y v := by
        apply step3_eq_of_isSome
        rw [setCell_costsRoom, hbase]
        rfl
      have hnt : ¬(opts2.trackCreeps = true ∧ id ∈ w.rooms) := by
        rw [h2t]
        simp
      rw [getCosts_eq_nontrack w _ id opts2 hnt, e1, e2, e3]
      refine ⟨?_, ?_⟩
      · simp only [setCell_costsRoom, hbase]
      · intro n
        simp only [setCell_costsRoom, hbase, Option.getD_some]
        rw [setCell_store_other _ _ _ _ _ _ hne]

open Screeps in
/-- C4 counterexample: for a region without visibility, `getCosts` with
agent tracking enabled returns the shared per-step base instance itself, not
a clone, and mutating the returned grid mutates the per-step base grid in
place (cell index 255 of the base entry becomes 200). -/
theorem atlas_overlay_alias_counterexample :
    (Atlas.getCosts exWorldInvis (AtlasState.init 1) exRoom
        { trackCreeps := true }).1 =
      ((Atlas.getCosts exWorldInvis (AtlasState.init 1) exRoom
          { trackCreeps := true }).2.costsRoom exRoom).getD 99 ∧
    ((Atlas.setCell
        (Atlas.getCosts exWorldInvis (AtlasState.init 1) exRoom
          { trackCreeps := true }).2
        (Atlas.getCosts exWorldInvis (AtlasState.init 1) exRoom
          { trackCreeps := true }).1 5 5 200).store
      (((Atlas.getCosts exWorldInvis (AtlasState.init 1) exRoom
          { trackCreeps := true }).2.costsRoom exRoom).getD 99)).bits 255 =
      200 ∧
    ((Atlas.getCosts exWorldInvis (AtlasState.init 1) exRoom
        { trackCreeps := true }).2.store
      (((Atlas.getCosts exWorldInvis (AtlasState.init 1) exRoom
          { trackCreeps := true }).2.costsRoom exRoom).getD 99)).bits 255 =
      0 := by
  refine ⟨by decide, by decide, by decide⟩

open Screeps in
/-- Witness for C4 (amended) at the example visible world with tracking. -/
theorem atlas_overlay_isolated_witness :
    exRoom ∈ exWorldVis.rooms ∧
    (AtlasState.init 1).costsCreep exRoom = none ∧
    (Atlas.getCosts exWorldVis (AtlasState.init 1) exRoom
        { trackCreeps := true }).1 ≠
      ((Atlas.getCosts exWorldVis (AtlasState.init 1) exRoom
          { trackCreeps := true }).2.costsRoom exRoom).getD 0 := by
  have hwf : AtlasWF (AtlasState.init 1) :=
    And.intro (fun r st h => nomatch h)
      (And.intro (fun r st h => nomatch h) (fun r h => nomatch h))
  exact ⟨by decide, rfl,
    (atlas_overlay_isolated exWorldVis (AtlasState.init 1) exRoom
      { trackCreeps := true } (by decide) rfl hwf rfl).1⟩

namespace Screeps

theorem step1_packed_none (w : World) (t : AtlasState) (id : JsStr)
    (hpk : t.packed id = none) : (Atlas.step1 w t).packed id = none := by
  unfold Atlas.step1
  by_cases hl : t.lastReset < w.time
  · rw [if_pos hl]
    exact reset_packed_none w t id hpk
  · rw [if_neg hl]
    exact hpk

theorem getCosts_refresh_ret (w : World) (t : AtlasState) (id : JsStr)
    (opts : Opts) (hpk : t.packed id = none)
    (hnt : ¬(opts.trackCreeps = true ∧ id ∈ w.rooms)) :
    (Atlas.getCosts w t id opts).1 = t.nextStamp := by
  have h1 : (Atlas.step1 w t).packed id = none := step1_packed_none w t id hpk
  have hn1 : (Atlas.step1 w t).nextStamp = t.nextStamp := step1_nextStamp w t
  have hstep2 : Atlas.step2 w (Atlas.step1 w t) id opts =
      Atlas.refresh w (Atlas.step1 w t) id opts := by
    unfold Atlas.step2
    rw [if_pos (Or.inl (by rw [h1]; rfl))]
  have hcr : (Atlas.refresh w (Atlas.step1 w t) id opts).costsRoom id =
      some t.nextStamp := by
    rw [refresh_costsRoom_at, if_pos rfl, hn1]
  have hstep3 : Atlas.step3 (Atlas.refresh w (Atlas.step1 w t) id opts) id =
      Atlas.refresh w (Atlas.step1 w t) id opts :=
    step3_eq_of_isSome _ _ (by rw [hcr]; rfl)
  rw [getCosts_eq_nontrack w t id opts hnt, hstep2, hstep3]
  simp only [hcr, Option.getD_some]

theorem getCosts_invis_spec (w : World) (t : AtlasState) (id : JsStr)
    (opts : Opts) (hinv : id ∉ w.rooms) (hpk : t.packed id = none) :
    (Atlas.getCosts w t id opts).1 = t.nextStamp ∧
    (Atlas.getCosts w t id opts).2.nextStamp = t.nextStamp + 1 ∧
    (Atlas.getCosts w t id opts).2.packed id = none ∧
    (Atlas.getCosts w t id opts).2.store t.nextStamp =
      Packed.MatrixData.blank := by
  have hnt : ¬(opts.trackCreeps = true ∧ id ∈ w.rooms) := by
    intro hc
    exact hinv hc.2
  have h1 : (Atlas.step1 w t).packed id = none := step1_packed_none w t id hpk
  have hn1 : (Atlas.step1 w t).nextStamp = t.nextStamp := step1_nextStamp w t
  have hstep2 : Atlas.step2 w (Atlas.step1 w t) id opts =
      Atlas.refresh w (Atlas.step1 w t) id opts := by
    unfold Atlas.step2
    rw [if_pos (Or.inl (by rw [h1]; rfl))]
  have hcr : (Atlas.refresh w (Atlas.step1 w t) id opts).costsRoom id =
      some t.nextStamp := by
    rw [refresh_costsRoom_at, if_pos rfl, hn1]
  have hstep3 : Atlas.step3 (Atlas.refresh w (Atlas.step1 w t) id opts) id =
      Atlas.refresh w (Atlas.step1 w t) id opts :=
    step3_eq_of_isSome _ _ (by rw [hcr]; rfl)
  have hpk2 : (Atlas.refresh w (Atlas.step1 w t) id opts).packed id = none := by
    rw [refresh_packed_of_invis w _ id opts hinv]
    exact h1
  have hstore : (Atlas.refresh w (Atlas.step1 w t) id opts).store t.nextStamp =
      Packed.MatrixData.blank := by
    have h := refresh_store_blank_of_invis w (Atlas.step1 w t) id opts hinv
    rw [hn1] at h
    exact h
  have hns : (Atlas.refresh w (Atlas.step1 w t) id opts).nextStamp =
      t.nextStamp + 1 := by
    rw [refresh_nextStamp, hn1]
  rw [getCosts_eq_nontrack w t id opts hnt, hstep2, hstep3]
  exact ⟨by simp only [hcr, Option.getD_some], hns, hpk2, hstore⟩

end Screeps

open Screeps in
/-- C5 (amended): for a region that is not currently observable and has no
durable compressed entry (the rebuild case of the specification), a
`getCosts` request returns a grid containing no structure data (every cell
is 0), persists nothing durably for that region, and on the next request —
at any tick, under any non-tracking options, whatever the visibility then —
the grid is freshly recomputed (a newly allocated instance) rather than
served durably. -/
theorem atlas_unobservable_not_persisted (w : World) (s : AtlasState)
    (id : JsStr) (opts : Opts) (hinv : id ∉ w.rooms)
    (hpk : s.packed id = none) :
    (∀ n, ((Atlas.getCosts w s id opts).2.store
        (Atlas.getCosts w s id opts).1).bits n = 0) ∧
    (Atlas.getCosts w s id opts).2.packed id = none ∧
    (Atlas.getCosts w s id opts).1 < (Atlas.getCosts w s id opts).2.nextStamp ∧
    ∀ (w' : World) (opts' : Opts), opts'.trackCreeps = false →
      (Atlas.getCosts w s id opts).2.nextStamp ≤
        (Atlas.getCosts w' (Atlas.getCosts w s id opts).2 id opts').1 := by
  obtain ⟨hret, hns, hpk2, hstore⟩ := getCosts_invis_spec w s id opts hinv hpk
  refine ⟨?_, hpk2, ?_, ?_⟩
  · intro n
    rw [hret, hstore]
    rfl
  · rw [hret, hns]
    omega
  · intro w' opts' htr'
    have hnt' : ¬(opts'.trackCreeps = true ∧ id ∈ w'.rooms) := by
      rw [htr']
      simp
    rw [getCosts_refresh_ret w' (Atlas.getCosts w s id opts).2 id opts'
      hpk2 hnt']

open Screeps in
/-- C5 counterexample: a region whose durable entry was packed while it was
visible at tick 1 is no longer observable at tick 2, yet `getCosts` serves
the durable entry — the returned grid carries the structure cost 255 at cell
index 510, not a structure-free grid. -/
theorem atlas_unobservable_served_counterexample :
    exRoom ∉ exWorldLater.rooms ∧
    ((Atlas.getCosts exWorldLater
        (Atlas.getCosts exWorldVis (AtlasState.init 1) exRoom {}).2
        exRoom {}).2.store
      (Atlas.getCosts exWorldLater
        (Atlas.getCosts exWorldVis (AtlasState.init 1) exRoom {}).2
        exRoom {}).1).bits 510 = 255 := by
  refine ⟨by decide, by decide⟩

open Screeps in
/-- Witness for C5 (amended) at the example unobservable world. -/
theorem atlas_unobservable_not_persisted_witness :
    exRoom ∉ exWorldInvis.rooms ∧
    (AtlasState.init 1).packed exRoom = none ∧
    (∀ n, ((Atlas.getCosts exWorldInvis (AtlasState.init 1) exRoom {}).2.store
        (Atlas.getCosts exWorldInvis (AtlasState.init 1) exRoom {}).1).bits
          n = 0) :=
  ⟨by decide, rfl,
    (atlas_unobservable_not_persisted exWorldInvis (AtlasState.init 1) exRoom
      {} (by decide) rfl).1⟩
